import Mathlib

/-!
Verification of the coffee-science voxel renderer.

This file shallowly embeds the morphing renderer (`src/services/VoxelEngine.ts`),
the external-service payload adaptation (`src/App.tsx`, `handleAskAI`), and the
discrete scene generators (`src/utils/voxelGenerators.ts`).

Modelling conventions:
* JavaScript numbers are modelled as rationals (`ℚ`); the numeric literals of
  the source (`0.015`, `0.5`, `0.1`, `0.2`, ...) are exact rationals here.
* `Math.sin`, `Math.cos` and `Math.random` are injected as parameters
  (`ℚ → ℚ`, `ℕ → ℚ`): every theorem quantifies over them.
* The two listener callbacks (`onStateChange`, `onCountChange`) are modelled as
  an append-only event log carried in the engine state; invoking a listener
  appends an `Event`.
* `THREE.InstancedMesh` is modelled by its observable per-instance state: the
  instance count, the decomposed (position, scale) of each instance matrix
  (the engine never rotates its scratch `dummy`, so rotation is identity
  throughout), and the per-instance colors (`none` before the first
  `setColorAt`).  A freshly constructed instanced mesh has a zero-filled
  matrix buffer, i.e. position `(0,0,0)` and scale `(0,0,0)` per slot.
* The shared scratch `THREE.Object3D` (`this.dummy`) is part of the engine
  state (`dummyPos`, `dummyScale`), because its fields persist across calls
  and across loop iterations — this is observable in the orphan-slot branch
  of `animate`, which reuses the stale `dummy.position`.
-/

/-- Vector of three rationals (models a `THREE.Vector3`). -/
abbrev Vec3 : Type := ℚ × ℚ × ℚ

/-- Componentwise `THREE.Vector3.lerp`: `a + (b - a) * t` per axis.  The
per-axis position interpolation in `animate` uses the same formula. -/
def lerp3 (a b : Vec3) (t : ℚ) : Vec3 :=
  (a.1 + (b.1 - a.1) * t, a.2.1 + (b.2.1 - a.2.1) * t, a.2.2 + (b.2.2 - a.2.2) * t)

/-- Structure `VoxelData` from `src/types` (`part_002`): a particle descriptor. -/
structure VoxelData where
  x : ℚ
  y : ℚ
  z : ℚ
  color : ℤ
deriving DecidableEq

/-- Enumeration `AppState` from `src/types` (`part_002`). -/
inductive AppState where
  | STABLE
  | DISMANTLING
  | REBUILDING
deriving DecidableEq

/-- A listener invocation: `onStateChange` or `onCountChange`. -/
inductive Event where
  | stateChange (s : AppState)
  | countChange (n : ℕ)
deriving DecidableEq

/-- One pool entry of the instanced mesh: decomposed instance matrix
(position and scale; rotation is always the identity). -/
structure Slot where
  pos : Vec3
  scale : Vec3
deriving DecidableEq

/-- The decomposition of a zero matrix (fresh `InstancedMesh` buffer). -/
def zeroSlot : Slot := ⟨(0, 0, 0), (0, 0, 0)⟩

/-- Observable state of `THREE.InstancedMesh`:  `count`, one `Slot` per
instance, and one optional color per instance (colors start unset). -/
structure Mesh where
  count : ℕ
  matrices : List Slot
  colors : List (Option ℤ)
deriving DecidableEq

/-- The mutable fields of class `VoxelEngine` that the algorithm reads or
writes, plus the event log of listener invocations. -/
structure Engine where
  instanceMesh : Option Mesh
  dummyPos : Vec3
  dummyScale : Vec3
  voxels : List VoxelData        -- `this.voxels`: declared in the source, never used
  targetVoxels : List VoxelData
  morphProgress : ℚ
  state : AppState
  frameCount : ℕ
  events : List Event
deriving DecidableEq

/-- Invoke a listener: append to the event log. -/
def emit (e : Engine) (ev : Event) : Engine :=
  { e with events := e.events ++ [ev] }

/-- Engine state after the constructor: field initializers
(`instanceMesh = null`, `voxels = []`, `targetVoxels = []`,
`morphProgress = 1`, `state = STABLE`, fresh `dummy`), plus the single
`animate()` call the constructor makes — with no mesh it only increments
`frameCount`. -/
def initEngine : Engine :=
  { instanceMesh := none
    dummyPos := (0, 0, 0)
    dummyScale := (1, 1, 1)
    voxels := []
    targetVoxels := []
    morphProgress := 1
    state := AppState.STABLE
    frameCount := 1
    events := [] }

/-- Method `VoxelEngine.updateMeshBufferSize`: dispose the old mesh and allocate a
fresh `InstancedMesh` with `count` instances (zeroed matrices, unset colors). -/
def updateMeshBufferSize (e : Engine) (count : ℕ) : Engine :=
  let fresh : Mesh :=
    { count := count
      matrices := List.replicate count zeroSlot
      colors := List.replicate count none }
  { e with instanceMesh := some fresh }

/-- The `data.forEach` body of `VoxelEngine.updateMesh`: for the `i`-th voxel,
set the scratch dummy to (position, unit scale), write its matrix with
`setMatrixAt i` and its color with `setColorAt i`. -/
def writeVoxels : List VoxelData → ℕ → List Slot → List (Option ℤ) → Vec3 → Vec3 →
    List Slot × List (Option ℤ) × Vec3 × Vec3
  | [], _, ms, cs, dp, ds => (ms, cs, dp, ds)
  | v :: rest, i, ms, cs, _, _ =>
      writeVoxels rest (i + 1) (ms.set i ⟨(v.x, v.y, v.z), (1, 1, 1)⟩)
        (cs.set i (some v.color)) (v.x, v.y, v.z) (1, 1, 1)

/-- Method `VoxelEngine.updateMesh`: rebuild the buffer at `data.length` and write
every voxel's matrix and color. -/
def updateMesh (e : Engine) (data : List VoxelData) : Engine :=
  let e1 := updateMeshBufferSize e data.length
  match e1.instanceMesh with
  | none => e1
  | some m =>
      let r := writeVoxels data 0 m.matrices m.colors e1.dummyPos e1.dummyScale
      { e1 with
        instanceMesh := some { m with matrices := r.1, colors := r.2.1 }
        dummyPos := r.2.2.1
        dummyScale := r.2.2.2 }

/-- Method `VoxelEngine.loadInitialModel`. -/
def loadInitialModel (e : Engine) (data : List VoxelData) : Engine :=
  let e1 := updateMesh e data
  let e2 := { e1 with targetVoxels := data }
  let e3 := emit e2 (Event.countChange data.length)
  let e4 := { e3 with state := AppState.STABLE }
  emit e4 (Event.stateChange AppState.STABLE)

/-- Method `VoxelEngine.transitionTo`. -/
def transitionTo (e : Engine) (targetData : List VoxelData) : Engine :=
  if e.state = AppState.REBUILDING then e
  else
    match e.instanceMesh with
    | none => loadInitialModel e targetData
    | some m =>
        if m.count = 0 then loadInitialModel e targetData
        else
          let e1 := { e with
            targetVoxels := targetData
            morphProgress := 0
            state := AppState.REBUILDING }
          let e2 := emit e1 (Event.stateChange AppState.REBUILDING)
          let maxCount := max m.count targetData.length
          let e3 := if m.count < maxCount then updateMeshBufferSize e2 maxCount else e2
          emit e3 (Event.countChange targetData.length)

/-- The morph-progress section of `VoxelEngine.animate` (lines 144-151):
while `REBUILDING`, add `0.015`; on reaching `1`, clamp, flip to `STABLE`
and notify the state listener. -/
def animateProgress (e : Engine) : Engine :=
  if e.state = AppState.REBUILDING then
    let p := e.morphProgress + 3 / 200
    if 1 ≤ p then
      emit { e with morphProgress := 1, state := AppState.STABLE }
        (Event.stateChange AppState.STABLE)
    else { e with morphProgress := p }
  else e

/-- Accumulator threaded through the per-slot loop of `animate`: the mesh
buffers plus the shared scratch `dummy`. -/
structure LoopAcc where
  matrices : List Slot
  colors : List (Option ℤ)
  dummyPos : Vec3
  dummyScale : Vec3
deriving DecidableEq

/-- One iteration of the per-slot loop in `VoxelEngine.animate`
(lines 156-200).  `st` and `progress` are the state and progress after the
progress update; `time = frameCount * 0.01`.  A live slot (`targets[i]`
defined) lerps position toward the target (plus the idle sinusoidal float
when not morphing) and scale toward unit scale, updates the scratch dummy,
and adopts the target color once morphing progress passes `0.5`.  An
orphaned slot lerps its scale toward zero with ratio `0.2`, but composes its
matrix from the scratch dummy's *stale* position (the source decomposes into
local vectors and never writes `dummy.position` in this branch). -/
def animSlot (jsSin : ℚ → ℚ) (time : ℚ) (st : AppState) (progress : ℚ)
    (targets : List VoxelData) (acc : LoopAcc) (i : ℕ) : LoopAcc :=
  let cur := acc.matrices.getD i zeroSlot
  match targets[i]? with
  | some t =>
      let ty := if st = AppState.REBUILDING then t.y
                else t.y + jsSin (time + t.x * (1 / 2)) * (1 / 20)
      let pos := lerp3 cur.pos (t.x, ty, t.z) (1 / 10)
      let scl := lerp3 cur.scale (1, 1, 1) (1 / 10)
      { matrices := acc.matrices.set i ⟨pos, scl⟩
        colors := if st = AppState.REBUILDING ∧ 1 / 2 < progress
                  then acc.colors.set i (some t.color) else acc.colors
        dummyPos := pos
        dummyScale := scl }
  | none =>
      let scl := lerp3 cur.scale (0, 0, 0) (1 / 5)
      { matrices := acc.matrices.set i ⟨acc.dummyPos, scl⟩
        colors := acc.colors
        dummyPos := acc.dummyPos
        dummyScale := scl }

/-- Method `VoxelEngine.animate` (one frame tick): bump `frameCount`; if a mesh
exists, run the progress update and then the per-slot loop over all
`count` instances. -/
def animate (jsSin : ℚ → ℚ) (e0 : Engine) : Engine :=
  let e := { e0 with frameCount := e0.frameCount + 1 }
  let time : ℚ := (e.frameCount : ℚ) * (1 / 100)
  match e.instanceMesh with
  | none => e
  | some m =>
      let e2 := animateProgress e
      let acc0 : LoopAcc := ⟨m.matrices, m.colors, e.dummyPos, e.dummyScale⟩
      let r := (List.range m.count).foldl
        (animSlot jsSin time e2.state e2.morphProgress e.targetVoxels) acc0
      { e2 with
        instanceMesh := some { m with matrices := r.matrices, colors := r.colors }
        dummyPos := r.dummyPos
        dummyScale := r.dummyScale }

/-- Iterate `k` successive frame ticks. -/
def ticks (jsSin : ℚ → ℚ) : ℕ → Engine → Engine
  | 0, e => e
  | k + 1, e => animate jsSin (ticks jsSin k e)

/-- An external interaction with the engine: a `transitionTo` call or a
frame tick. -/
inductive Op where
  | trans (cloud : List VoxelData)
  | tick
deriving DecidableEq

/-- Apply one interaction. -/
def step (jsSin : ℚ → ℚ) (e : Engine) : Op → Engine
  | Op.trans c => transitionTo e c
  | Op.tick => animate jsSin e

/-- Run a sequence of interactions. -/
def run (jsSin : ℚ → ℚ) (e : Engine) (ops : List Op) : Engine :=
  ops.foldl (step jsSin) e

/-- Pool capacity: the instance count of the mesh, `0` when no mesh exists. -/
def capacity (e : Engine) : ℕ :=
  match e.instanceMesh with
  | none => 0
  | some m => m.count

/-!
## External-service payload adaptation (`src/App.tsx`, `handleAskAI`)

The adaptation of a `{x, y, z, color}` entry returned by the generative
service: strip a leading `#`, run `parseInt(colorStr, 16)`, and fall back to
`0xCCCCCC` when the parse yields `NaN`.
-/

/-- The character `#` (code 35). -/
def hashChar : Char := Char.ofNat 35

/-- A raw voxel entry of the external-service payload, before adaptation. -/
structure RawVoxel where
  x : ℚ
  y : ℚ
  z : ℚ
  color : String
deriving DecidableEq

/-- Is `c` a hexadecimal digit (`0-9`, `a-f`, `A-F`)? -/
def isHexDigit (c : Char) : Bool :=
  (48 ≤ c.toNat && c.toNat ≤ 57) ||
  (97 ≤ c.toNat && c.toNat ≤ 102) ||
  (65 ≤ c.toNat && c.toNat ≤ 70)

/-- Numeric value of a hexadecimal digit. -/
def hexDigitVal (c : Char) : ℕ :=
  if c.toNat ≤ 57 then c.toNat - 48
  else if c.toNat ≤ 70 then c.toNat - 55
  else c.toNat - 87

/-- Value of a list of hexadecimal digits, most significant first. -/
def hexVal (cs : List Char) : ℕ :=
  cs.foldl (fun a c => 16 * a + hexDigitVal c) 0

/-- Strip a leading `0x` / `0X` marker, as `parseInt` does for radix 16. -/
def dropHexMarker : List Char → List Char
  | c0 :: c1 :: rest =>
      if c0 = '0' ∧ (c1 = 'x' ∨ c1 = 'X') then rest else c0 :: c1 :: rest
  | cs => cs

/-- JavaScript `parseInt(s, 16)` on the characters of `s`: trim leading
whitespace, read an optional sign, strip an optional `0x`/`0X`, then take the
longest prefix of hex digits; `none` models a `NaN` result (no digits). -/
def jsParseIntHex (cs0 : List Char) : Option ℤ :=
  let cs1 := cs0.dropWhile Char.isWhitespace
  let sgn : ℤ × List Char :=
    match cs1 with
    | c :: rest => if c = '-' then (-1, rest) else if c = '+' then (1, rest) else (1, cs1)
    | [] => (1, [])
  let ds := (dropHexMarker sgn.2).takeWhile isHexDigit
  if ds.isEmpty then none else some (sgn.1 * (hexVal ds : ℤ))

/-- The per-entry adaptation in `handleAskAI` (`src/App.tsx` lines 189-197):
strip a leading `#`, parse as hex, fall back to `0xCCCCCC` on `NaN`. -/
def adaptVoxel (v : RawVoxel) : VoxelData :=
  let cs := v.color.data
  let colorStr :=
    match cs with
    | c :: rest => if c = hashChar then rest else c :: rest
    | [] => []
  match jsParseIntHex colorStr with
  | none => { x := v.x, y := v.y, z := v.z, color := 0xCCCCCC }
  | some n => { x := v.x, y := v.y, z := v.z, color := n }

/-!
## Discrete scene generators (`src/utils/voxelGenerators.ts`)

The generators build a `Map<string, VoxelData>` keyed by the string
`` `${rx},${ry},${rz}` `` of the rounded coordinates, then return
`Array.from(map.values())`.  The map is modelled as an association list with
JavaScript `Map.set` semantics (update in place, else append).  `Math.sin`,
`Math.cos` and `Math.random` are injected parameters.

Color constants are those of `src/utils/voxelConstants.ts`; the four names
the generators use that are *absent* from that file (`COFFEE_MED`, `PAPER`,
`WATER_DEEP`, `HIGHLIGHT`, which are `undefined` at runtime) are modelled as
an arbitrary fixed value `0` — no theorem below depends on any color value.
-/

namespace COLORS

def COFFEE_DARK : ℤ := 0x3e2723
def COFFEE_LIGHT : ℤ := 0x8d6e63
def CERAMIC : ℤ := 0xffffff
def GLASS : ℤ := 0x90a4ae
def STEEL : ℤ := 0xb0bec5
def GAS : ℤ := 0xffeb3b
/-- Absent from `voxelConstants.ts` (`undefined` at runtime). -/
def COFFEE_MED : ℤ := 0
/-- Absent from `voxelConstants.ts` (`undefined` at runtime). -/
def PAPER : ℤ := 0
/-- Absent from `voxelConstants.ts` (`undefined` at runtime). -/
def WATER_DEEP : ℤ := 0
/-- Absent from `voxelConstants.ts` (`undefined` at runtime). -/
def HIGHLIGHT : ℤ := 0

end COLORS

/-- JavaScript `Math.round`: round half toward positive infinity. -/
def jsRound (q : ℚ) : ℤ := ⌊q + 1 / 2⌋

/-- The comma separator of the map key. -/
def commaStr : String := ","

/-- The map key `` `${rx},${ry},${rz}` `` of a rounded coordinate triple. -/
def blockKey (rx ry rz : ℤ) : String :=
  toString rx ++ commaStr ++ toString ry ++ commaStr ++ toString rz

/-- The voxel map: association list with JS `Map` iteration order. -/
abbrev VMap : Type := List (String × VoxelData)

/-- JavaScript `Map.set`: overwrite the value of an existing key in place,
otherwise append the new entry. -/
def mapSet (m : VMap) (k : String) (v : VoxelData) : VMap :=
  if m.any (fun p => p.1 = k) then
    m.map (fun p => if p.1 = k then (k, v) else p)
  else m ++ [(k, v)]

/-- Helper `setBlock` (`voxelGenerators.ts` lines 10-16): round the coordinates,
key the cell by the rounded triple, store the rounded voxel. -/
def setBlock (m : VMap) (x y z : ℚ) (color : ℤ) : VMap :=
  let rx := jsRound x
  let ry := jsRound y
  let rz := jsRound z
  mapSet m (blockKey rx ry rz) { x := (rx : ℚ), y := (ry : ℚ), z := (rz : ℚ), color := color }

/-- Model of `Array.from(map.values())`. -/
def mapValues (m : VMap) : List VoxelData := m.map (fun p => p.2)

/-- Integer loop `for (let v = a; v <= b; v++)`. -/
def intRange (a b : ℤ) : List ℤ :=
  (List.range (b + 1 - a).toNat).map (fun i => a + i)

/-- Rational loop `for (let v = start; v < stop; v += step)` with `step > 0`:
the iterates `start, start + step, ...` strictly below `stop`. -/
def qRange (start stop stp : ℚ) : List ℚ :=
  (List.range (⌈(stop - start) / stp⌉.toNat)).map (fun i => start + i * stp)

/-- Helper `drawCircle` (`voxelGenerators.ts` lines 18-28). -/
def drawCircle (m : VMap) (y radius : ℚ) (color : ℤ) (fill : Bool) : VMap :=
  let r2 := radius * radius
  (intRange (-⌈radius⌉) ⌈radius⌉).foldl (fun m1 x =>
    (intRange (-⌈radius⌉) ⌈radius⌉).foldl (fun m2 z =>
      let d2 : ℚ := (x : ℚ) * x + (z : ℚ) * z
      if d2 ≤ r2 ∧ (fill ∨ (radius - 1) * (radius - 1) ≤ d2) then
        setBlock m2 (x : ℚ) y (z : ℚ) color
      else m2) m1) m

/-- Helper `drawCone` (`voxelGenerators.ts` lines 30-36). -/
def drawCone (m : VMap) (yStart : ℚ) (height : ℕ) (rStart rEnd : ℚ)
    (color : ℤ) (fill : Bool) : VMap :=
  (List.range height).foldl (fun m1 h =>
    let t : ℚ := (h : ℚ) / (height : ℚ)
    let r := rStart * (1 - t) + rEnd * t
    drawCircle m1 (yStart + h) r color fill) m

namespace Generators

/-- Scene `Generators.V60Setup`. -/
def V60Setup : List VoxelData :=
  let m : VMap := []
  -- Carafe (glass), then its handle
  let m := drawCone m (-10) 8 5 2 COLORS.GLASS false
  let m := (intRange (-8) (-5)).foldl (fun m1 y =>
    let m2 := setBlock m1 6 (y : ℚ) 0 COLORS.STEEL
    setBlock m2 5 (y : ℚ) 0 COLORS.STEEL) m
  -- Dripper (ceramic) and rim
  let m := drawCone m (-2) 6 (3 / 2) 6 COLORS.CERAMIC false
  let m := drawCircle m 4 (31 / 5) COLORS.CERAMIC false
  -- Filter (paper)
  let m := drawCone m (-3 / 2) 6 (7 / 5) (29 / 5) COLORS.PAPER false
  -- Coffee bed
  let m := drawCone m (-1) 3 (6 / 5) (7 / 2) COLORS.COFFEE_DARK true
  mapValues m

/-- Scene `Generators.Equipment`; `sinPi t` models `Math.sin(t * Math.PI)`. -/
def Equipment (sinPi : ℚ → ℚ) : List VoxelData :=
  let m : VMap := []
  -- Scale base and display
  let m := (intRange (-6) 6).foldl (fun m1 x =>
    (intRange (-6) 6).foldl (fun m2 z =>
      setBlock m2 (x : ℚ) (-10) (z : ℚ) COLORS.STEEL) m1) m
  let m := (intRange (-2) 2).foldl (fun m1 x =>
    setBlock m1 (x : ℚ) (-10) 6 COLORS.HIGHLIGHT) m
  -- Kettle body, lid, gooseneck spout, tip
  let m := drawCone m (-9) 6 5 4 COLORS.STEEL false
  let m := drawCircle m (-3) 4 COLORS.STEEL true
  let m := (List.range 10).foldl (fun m1 i =>
    let t : ℚ := (i : ℚ) / 10
    let y := -8 + t * 8
    let x := 5 + sinPi t * 4
    setBlock m1 x y 0 COLORS.STEEL) m
  let m := setBlock m 9 0 0 COLORS.STEEL
  mapValues m

/-- Scene `Generators.GrindSize`; `rand` is the injected `Math.random` stream,
consumed once per fine-grind candidate cell. -/
def GrindSize (rand : ℕ → ℚ) : List VoxelData :=
  let m : VMap := []
  -- Fine (left): stochastic inclusion, `Math.random() > 0.3`
  let fine := (qRange (-12) (-4) (1 / 2)).foldl (fun s x =>
    (qRange (-4) 4 (1 / 2)).foldl (fun s1 z =>
      (qRange (-5) 0 (1 / 2)).foldl (fun s2 y =>
        let m2 := if 3 / 10 < rand s2.2 then setBlock s2.1 x y z COLORS.COFFEE_DARK else s2.1
        (m2, s2.2 + 1)) s1) s) (m, 0)
  let m := fine.1
  -- Medium (center): clumps
  let m := (qRange (-2) 2 (6 / 5)).foldl (fun m1 x =>
    (qRange (-4) 4 (6 / 5)).foldl (fun m2 z =>
      (qRange (-5) 2 (6 / 5)).foldl (fun m3 y =>
        let m4 := setBlock m3 x y z COLORS.COFFEE_MED
        let m5 := setBlock m4 (x + 1 / 2) y z COLORS.COFFEE_MED
        setBlock m5 x (y + 1 / 2) z COLORS.COFFEE_MED) m2) m1) m
  -- Coarse (right): big chunks
  let m := (qRange 6 14 2).foldl (fun m1 x =>
    (qRange (-4) 4 2).foldl (fun m2 z =>
      (qRange (-5) 0 2).foldl (fun m3 y =>
        (qRange 0 (3 / 2) (1 / 2)).foldl (fun m4 dx =>
          (qRange 0 (3 / 2) (1 / 2)).foldl (fun m5 dy =>
            (qRange 0 (3 / 2) (1 / 2)).foldl (fun m6 dz =>
              setBlock m6 (x + dx) (y + dy) (z + dz) COLORS.COFFEE_LIGHT) m5) m4) m3) m2) m1) m
  mapValues m

/-- Scene `Generators.BloomPhase`; `rand` is the injected `Math.random` stream,
consumed three times per bubble (x, z, y in source order). -/
def BloomPhase (rand : ℕ → ℚ) : List VoxelData :=
  let m : VMap := []
  let m := drawCone m (-5) 5 2 6 COLORS.COFFEE_DARK true
  let m := drawCircle m 0 5 COLORS.WATER_DEEP true
  let m := (List.range 50).foldl (fun m1 i =>
    let x := (rand (3 * i) - 1 / 2) * 8
    let z := (rand (3 * i + 1) - 1 / 2) * 8
    let y := rand (3 * i + 2) * 8 + 1
    setBlock m1 x y z COLORS.GAS) m
  mapValues m

/-- Scene `Generators.SpiralPour`; `sin`/`cos` are the injected `Math.sin`/`Math.cos`. -/
def SpiralPour (sin cos : ℚ → ℚ) : List VoxelData :=
  let m : VMap := []
  let m := drawCone m (-5) 8 2 7 COLORS.PAPER false
  let spiral := (qRange (-2) 10 (1 / 5)).foldl (fun s y =>
    let theta := s.2 + 1 / 2
    let r := y * (2 / 5)
    let x := cos theta * r
    let z := sin theta * r
    let m2 := setBlock s.1 x y z COLORS.WATER_DEEP
    let m3 := setBlock m2 x (y - 1 / 2) z COLORS.WATER_DEEP
    (m3, theta)) (m, (0 : ℚ))
  let m := spiral.1
  let m := setBlock m 0 12 0 COLORS.STEEL
  mapValues m

end Generators


/-!
## Basic facts about `loadInitialModel` and `transitionTo`
-/

/-- Sample inputs used by concrete witnesses below. -/
def jsZero : ℚ → ℚ := fun _ => 0

def sv1 : VoxelData := ⟨1, 2, 3, 5⟩

def sv2 : VoxelData := ⟨4, 5, 6, 7⟩

/-- A stable engine with a pool of one instance (one accepted call on a
fresh engine). -/
def sampleStable : Engine := transitionTo initEngine [sv1]

/-- An engine in the middle of a morph (a second accepted call). -/
def sampleRebuilding : Engine := transitionTo sampleStable [sv2, sv1]

/-- The slot written for a voxel by `updateMesh`. -/
def voxSlot (v : VoxelData) : Slot := ⟨(v.x, v.y, v.z), (1, 1, 1)⟩

lemma writeVoxels_spec :
    ∀ (data : List VoxelData) (pre : List Slot) (preC : List (Option ℤ)) (dp ds : Vec3),
    preC.length = pre.length →
    (writeVoxels data pre.length (pre ++ List.replicate data.length zeroSlot)
        (preC ++ List.replicate data.length none) dp ds).1
      = pre ++ data.map voxSlot ∧
    (writeVoxels data pre.length (pre ++ List.replicate data.length zeroSlot)
        (preC ++ List.replicate data.length none) dp ds).2.1
      = preC ++ data.map (fun v => some v.color) := by
  intro data
  induction data with
  | nil => intro pre preC dp ds h; simp [writeVoxels]
  | cons v rest ih =>
      intro pre preC dp ds h
      have hs : (pre ++ List.replicate (rest.length + 1) zeroSlot).set pre.length (voxSlot v)
          = (pre ++ [voxSlot v]) ++ List.replicate rest.length zeroSlot := by
        simp [List.set_append, List.replicate_succ]
      have hc : (preC ++ List.replicate (rest.length + 1) none).set pre.length (some v.color)
          = (preC ++ [some v.color]) ++ List.replicate rest.length none := by
        simp [List.set_append, List.replicate_succ, h]
      have hL : pre.length + 1 = (pre ++ [voxSlot v]).length := by simp
      have hL2 : (preC ++ [some v.color]).length = (pre ++ [voxSlot v]).length := by simp [h]
      have step := ih (pre ++ [voxSlot v]) (preC ++ [some v.color]) (v.x, v.y, v.z) (1, 1, 1) hL2
      simp only [voxSlot] at hs hc hL hL2 step
      simp only [writeVoxels, List.length_cons, List.map_cons, voxSlot]
      rw [show rest.length + 1 = Nat.succ rest.length from rfl] at hs hc
      constructor
      · calc (writeVoxels rest (pre.length + 1)
              ((pre ++ List.replicate (rest.length + 1) zeroSlot).set pre.length ⟨(v.x, v.y, v.z), (1, 1, 1)⟩)
              ((preC ++ List.replicate (rest.length + 1) none).set pre.length (some v.color))
              (v.x, v.y, v.z) (1, 1, 1)).1
            = (pre ++ [(⟨(v.x, v.y, v.z), (1, 1, 1)⟩ : Slot)]) ++ rest.map (fun v => (⟨(v.x, v.y, v.z), (1, 1, 1)⟩ : Slot)) := by
              rw [hs, hc, hL]; exact (step).1
        _ = pre ++ ((⟨(v.x, v.y, v.z), (1, 1, 1)⟩ : Slot) :: rest.map (fun v => (⟨(v.x, v.y, v.z), (1, 1, 1)⟩ : Slot))) := by simp
      · calc (writeVoxels rest (pre.length + 1)
              ((pre ++ List.replicate (rest.length + 1) zeroSlot).set pre.length ⟨(v.x, v.y, v.z), (1, 1, 1)⟩)
              ((preC ++ List.replicate (rest.length + 1) none).set pre.length (some v.color))
              (v.x, v.y, v.z) (1, 1, 1)).2.1
            = (preC ++ [some v.color]) ++ rest.map (fun v => some v.color) := by
              rw [hs, hc, hL]; exact (step).2
        _ = preC ++ (some v.color :: rest.map (fun v => some v.color)) := by simp

lemma loadInitialModel_spec (e : Engine) (d : List VoxelData) :
    (loadInitialModel e d).state = AppState.STABLE ∧
    (loadInitialModel e d).morphProgress = e.morphProgress ∧
    (loadInitialModel e d).targetVoxels = d ∧
    (loadInitialModel e d).events
      = e.events ++ [Event.countChange d.length, Event.stateChange AppState.STABLE] ∧
    (loadInitialModel e d).instanceMesh = some
      { count := d.length
        matrices := d.map voxSlot
        colors := d.map (fun v => some v.color) } := by
  have h := writeVoxels_spec d [] [] e.dummyPos e.dummyScale rfl
  simp only [List.nil_append, List.length_nil] at h
  simp [loadInitialModel, updateMesh, updateMeshBufferSize, emit, h.1, h.2]

lemma transitionTo_rejected (e : Engine) (c : List VoxelData)
    (h : e.state = AppState.REBUILDING) : transitionTo e c = e := by
  simp [transitionTo, h]

lemma transitionTo_empty_pool (e : Engine) (c : List VoxelData)
    (hst : e.state ≠ AppState.REBUILDING)
    (h : e.instanceMesh = none ∨ ∃ m, e.instanceMesh = some m ∧ m.count = 0) :
    transitionTo e c = loadInitialModel e c := by
  rcases h with h | ⟨m, hm, hc⟩
  · simp [transitionTo, hst, h]
  · simp [transitionTo, hst, hm, hc]

lemma transitionTo_accepted_spec (e : Engine) (c : List VoxelData) (m : Mesh)
    (hst : e.state ≠ AppState.REBUILDING) (hm : e.instanceMesh = some m)
    (hc : m.count ≠ 0) :
    (transitionTo e c).state = AppState.REBUILDING ∧
    (transitionTo e c).morphProgress = 0 ∧
    (transitionTo e c).targetVoxels = c ∧
    (transitionTo e c).events
      = e.events ++ [Event.stateChange AppState.REBUILDING, Event.countChange c.length] ∧
    (transitionTo e c).instanceMesh =
      (if m.count < max m.count c.length
       then some
        { count := max m.count c.length
          matrices := List.replicate (max m.count c.length) zeroSlot
          colors := List.replicate (max m.count c.length) none }
       else some m) := by
  simp only [transitionTo, hst, if_false, hm, hc, emit, updateMeshBufferSize]
  split
  · simp
  · simp

/-- C3: a `transitionTo` call is never partially applied — when the engine is
`REBUILDING` the call is a complete no-op (the whole engine state, including
target cloud, morph progress, state, pool and event log, is returned
unchanged); otherwise the target cloud is fully replaced by the requested
cloud. -/
theorem transitionTo_noop_or_full_replace (e : Engine) (c : List VoxelData) :
    (e.state = AppState.REBUILDING → transitionTo e c = e) ∧
    (e.state ≠ AppState.REBUILDING → (transitionTo e c).targetVoxels = c) := by
  constructor
  · intro h; exact transitionTo_rejected e c h
  · intro h
    rcases hm : e.instanceMesh with _ | m
    · rw [transitionTo_empty_pool e c h (Or.inl hm)]
      exact (loadInitialModel_spec e c).2.2.1
    · by_cases hc : m.count = 0
      · rw [transitionTo_empty_pool e c h (Or.inr ⟨m, hm, hc⟩)]
        exact (loadInitialModel_spec e c).2.2.1
      · exact (transitionTo_accepted_spec e c m h hm hc).2.2.1

/-- C3 witness: the rejected call on a concrete mid-morph engine is a no-op,
and an accepted call on a concrete stable engine replaces the target. -/
theorem transitionTo_noop_or_full_replace_witness :
    transitionTo sampleRebuilding [sv1] = sampleRebuilding ∧
    (transitionTo sampleStable [sv2]).targetVoxels = [sv2] :=
  ⟨(transitionTo_noop_or_full_replace sampleRebuilding [sv1]).1 (by decide),
   (transitionTo_noop_or_full_replace sampleStable [sv2]).2 (by decide)⟩

/-- C2 counterexample: a `transitionTo` call arriving while the engine is
`REBUILDING` returns without invoking the count-change listener at all — the
event log is unchanged and no `countChange 3` event (for the requested
3-element cloud) ever appears, contradicting the claim that every call
notifies the count listener with the cloud length. -/
theorem transitionTo_rejected_no_count_event :
    (transitionTo sampleRebuilding [sv1, sv1, sv1]).events = sampleRebuilding.events ∧
    Event.countChange 3 ∉ (transitionTo sampleRebuilding [sv1, sv1, sv1]).events := by
  exact ⟨by decide, by decide⟩

/-- C2 amended: every `transitionTo` call that is not rejected (i.e. made
while the state is not `REBUILDING`) invokes the count-change listener with
the requested cloud length before returning; a call rejected while
`REBUILDING` invokes no listener. -/
theorem transitionTo_count_notification (e : Engine) (c : List VoxelData) :
    (e.state ≠ AppState.REBUILDING →
      Event.countChange c.length ∈ (transitionTo e c).events.drop e.events.length) ∧
    (e.state = AppState.REBUILDING → (transitionTo e c).events = e.events) := by
  constructor
  · intro h
    rcases hm : e.instanceMesh with _ | m
    · rw [transitionTo_empty_pool e c h (Or.inl hm), (loadInitialModel_spec e c).2.2.2.1,
        List.drop_left]
      simp
    · by_cases hc : m.count = 0
      · rw [transitionTo_empty_pool e c h (Or.inr ⟨m, hm, hc⟩),
          (loadInitialModel_spec e c).2.2.2.1, List.drop_left]
        simp
      · rw [(transitionTo_accepted_spec e c m h hm hc).2.2.2.1, List.drop_left]
        simp
  · intro h; rw [transitionTo_rejected e c h]

/-- C2 amended witness: concrete accepted and rejected calls. -/
theorem transitionTo_count_notification_witness :
    Event.countChange 1 ∈ (transitionTo sampleStable [sv2]).events.drop sampleStable.events.length ∧
    (transitionTo sampleRebuilding [sv1]).events = sampleRebuilding.events :=
  ⟨(transitionTo_count_notification sampleStable [sv2]).1 (by decide),
   (transitionTo_count_notification sampleRebuilding [sv1]).2 (by decide)⟩

/-- C9: a `transitionTo` call on an empty pool (no instance mesh, or a mesh
of count 0) while not mid-morph bypasses the morph entirely: the cloud is
loaded immediately (every slot at its target position with unit scale and
its target color), the state is set to `STABLE` and never passes through
`REBUILDING` (the only state notification of the call is `STABLE`),
`morphProgress` is not reset, and the count listener fires with the cloud
length followed by the `STABLE` state notification. -/
theorem empty_pool_transition_loads_immediately (e : Engine) (c : List VoxelData)
    (hst : e.state ≠ AppState.REBUILDING)
    (h : e.instanceMesh = none ∨ ∃ m, e.instanceMesh = some m ∧ m.count = 0) :
    (transitionTo e c).state = AppState.STABLE ∧
    (transitionTo e c).morphProgress = e.morphProgress ∧
    (transitionTo e c).targetVoxels = c ∧
    (transitionTo e c).events
      = e.events ++ [Event.countChange c.length, Event.stateChange AppState.STABLE] ∧
    (∀ st, Event.stateChange st ∈ (transitionTo e c).events.drop e.events.length →
      st = AppState.STABLE) ∧
    (transitionTo e c).instanceMesh = some
      { count := c.length
        matrices := c.map voxSlot
        colors := c.map (fun v => some v.color) } := by
  rw [transitionTo_empty_pool e c hst h]
  obtain ⟨h1, h2, h3, h4, h5⟩ := loadInitialModel_spec e c
  refine ⟨h1, h2, h3, h4, ?_, h5⟩
  intro st hmem
  rw [h4, List.drop_left] at hmem
  simp only [List.mem_cons, List.mem_singleton] at hmem
  rcases hmem with h | h | h
  · exact absurd h (by simp)
  · exact (Event.stateChange.injEq _ _).mp h
  · exact absurd h (by simp)

/-- C9 witness: loading a one-voxel cloud into the fresh engine. -/
theorem empty_pool_transition_witness :
    (transitionTo initEngine [sv1]).state = AppState.STABLE ∧
    (transitionTo initEngine [sv1]).morphProgress = initEngine.morphProgress ∧
    (transitionTo initEngine [sv1]).targetVoxels = [sv1] ∧
    (transitionTo initEngine [sv1]).events
      = initEngine.events ++ [Event.countChange 1, Event.stateChange AppState.STABLE] ∧
    (∀ st, Event.stateChange st ∈ (transitionTo initEngine [sv1]).events.drop initEngine.events.length →
      st = AppState.STABLE) ∧
    (transitionTo initEngine [sv1]).instanceMesh = some
      { count := 1
        matrices := [sv1].map voxSlot
        colors := [sv1].map (fun v => some v.color) } :=
  empty_pool_transition_loads_immediately initEngine [sv1] (by decide) (Or.inl rfl)

/-!
## The `animate` loop
-/

/-- The per-slot loop of one `animate` call, as a function of the pre-tick
engine and its mesh. -/
def animateLoopAcc (s : ℚ → ℚ) (e : Engine) (m : Mesh) : LoopAcc :=
  (List.range m.count).foldl
    (animSlot s (((e.frameCount + 1 : ℕ) : ℚ) * (1 / 100))
      (animateProgress { e with frameCount := e.frameCount + 1 }).state
      (animateProgress { e with frameCount := e.frameCount + 1 }).morphProgress
      e.targetVoxels)
    ⟨m.matrices, m.colors, e.dummyPos, e.dummyScale⟩

lemma animate_none (s : ℚ → ℚ) (e : Engine) (hm : e.instanceMesh = none) :
    animate s e = { e with frameCount := e.frameCount + 1 } := by
  simp [animate, hm]

lemma animate_some (s : ℚ → ℚ) (e : Engine) (m : Mesh) (hm : e.instanceMesh = some m) :
    animate s e =
      { animateProgress { e with frameCount := e.frameCount + 1 } with
        instanceMesh := some { m with
          matrices := (animateLoopAcc s e m).matrices
          colors := (animateLoopAcc s e m).colors }
        dummyPos := (animateLoopAcc s e m).dummyPos
        dummyScale := (animateLoopAcc s e m).dummyScale } := by
  simp [animate, hm, animateLoopAcc]

lemma animateProgress_idle (e : Engine) (h : e.state ≠ AppState.REBUILDING) :
    animateProgress e = e := by
  simp [animateProgress, h]

lemma animateProgress_continue (e : Engine) (h : e.state = AppState.REBUILDING)
    (hp : ¬(1 ≤ e.morphProgress + 3 / 200)) :
    animateProgress e = { e with morphProgress := e.morphProgress + 3 / 200 } := by
  simp [animateProgress, h, hp]

lemma animateProgress_finish (e : Engine) (h : e.state = AppState.REBUILDING)
    (hp : 1 ≤ e.morphProgress + 3 / 200) :
    animateProgress e = { e with
      morphProgress := 1
      state := AppState.STABLE
      events := e.events ++ [Event.stateChange AppState.STABLE] } := by
  simp [animateProgress, h, hp, emit]

lemma animateProgress_targetVoxels (e : Engine) :
    (animateProgress e).targetVoxels = e.targetVoxels := by
  by_cases h : e.state = AppState.REBUILDING
  · by_cases hp : 1 ≤ e.morphProgress + 3 / 200
    · rw [animateProgress_finish e h hp]
    · rw [animateProgress_continue e h hp]
  · rw [animateProgress_idle e h]

lemma animate_targetVoxels (s : ℚ → ℚ) (e : Engine) :
    (animate s e).targetVoxels = e.targetVoxels := by
  rcases hm : e.instanceMesh with _ | m
  · rw [animate_none s e hm]
  · rw [animate_some s e m hm]
    exact animateProgress_targetVoxels _

lemma ticks_targetVoxels (s : ℚ → ℚ) (e : Engine) :
    ∀ k, (ticks s k e).targetVoxels = e.targetVoxels := by
  intro k
  induction k with
  | zero => rfl
  | succ k ih => rw [ticks, animate_targetVoxels, ih]

lemma animSlot_lengths (s : ℚ → ℚ) (t : ℚ) (st : AppState) (p : ℚ)
    (tv : List VoxelData) (acc : LoopAcc) (i : ℕ) :
    (animSlot s t st p tv acc i).matrices.length = acc.matrices.length ∧
    (animSlot s t st p tv acc i).colors.length = acc.colors.length := by
  rcases h : tv[i]? with _ | v
  · simp [animSlot, h]
  · simp only [animSlot, h]
    constructor
    · simp
    · split <;> simp

lemma loop_lengths (s : ℚ → ℚ) (t : ℚ) (st : AppState) (p : ℚ) (tv : List VoxelData) :
    ∀ (n : ℕ) (acc : LoopAcc),
    ((List.range n).foldl (animSlot s t st p tv) acc).matrices.length = acc.matrices.length ∧
    ((List.range n).foldl (animSlot s t st p tv) acc).colors.length = acc.colors.length := by
  intro n
  induction n with
  | zero => intro acc; simp
  | succ n ih =>
      intro acc
      rw [List.range_succ, List.foldl_append]
      obtain ⟨h1, h2⟩ := animSlot_lengths s t st p tv ((List.range n).foldl (animSlot s t st p tv) acc) n
      rw [List.foldl_cons, List.foldl_nil] at *
      exact ⟨h1.trans (ih acc).1, h2.trans (ih acc).2⟩

lemma animSlot_get_ne (s : ℚ → ℚ) (t : ℚ) (st : AppState) (p : ℚ)
    (tv : List VoxelData) (acc : LoopAcc) (j i : ℕ) (hne : j ≠ i) :
    (animSlot s t st p tv acc j).matrices[i]? = acc.matrices[i]? ∧
    (animSlot s t st p tv acc j).colors[i]? = acc.colors[i]? := by
  rcases h : tv[j]? with _ | v
  · simp [animSlot, h, List.getElem?_set, hne]
  · simp only [animSlot, h]
    constructor
    · simp [List.getElem?_set, hne]
    · split <;> simp [List.getElem?_set, hne]

lemma loop_get_le (s : ℚ → ℚ) (t : ℚ) (st : AppState) (p : ℚ) (tv : List VoxelData)
    (i : ℕ) : ∀ (n : ℕ), n ≤ i → ∀ (acc : LoopAcc),
    ((List.range n).foldl (animSlot s t st p tv) acc).matrices[i]? = acc.matrices[i]? ∧
    ((List.range n).foldl (animSlot s t st p tv) acc).colors[i]? = acc.colors[i]? := by
  intro n
  induction n with
  | zero => intro _ acc; simp
  | succ n ih =>
      intro hn acc
      rw [List.range_succ, List.foldl_append, List.foldl_cons, List.foldl_nil]
      obtain ⟨h1, h2⟩ := animSlot_get_ne s t st p tv
        ((List.range n).foldl (animSlot s t st p tv) acc) n i (by omega)
      obtain ⟨g1, g2⟩ := ih (by omega) acc
      exact ⟨h1.trans g1, h2.trans g2⟩

lemma loop_get_eq (s : ℚ → ℚ) (t : ℚ) (st : AppState) (p : ℚ) (tv : List VoxelData)
    (i : ℕ) : ∀ (n : ℕ), i < n → ∀ (acc : LoopAcc),
    ((List.range n).foldl (animSlot s t st p tv) acc).matrices[i]?
      = (animSlot s t st p tv ((List.range i).foldl (animSlot s t st p tv) acc) i).matrices[i]? ∧
    ((List.range n).foldl (animSlot s t st p tv) acc).colors[i]?
      = (animSlot s t st p tv ((List.range i).foldl (animSlot s t st p tv) acc) i).colors[i]? := by
  intro n
  induction n with
  | zero => omega
  | succ n ih =>
      intro hn acc
      rw [List.range_succ, List.foldl_append, List.foldl_cons, List.foldl_nil]
      rcases Nat.lt_or_ge i n with h | h
      · obtain ⟨h1, h2⟩ := animSlot_get_ne s t st p tv
          ((List.range n).foldl (animSlot s t st p tv) acc) n i (by omega)
        obtain ⟨g1, g2⟩ := ih h acc
        exact ⟨h1.trans g1, h2.trans g2⟩
      · have hi : i = n := by omega
        subst hi
        exact ⟨rfl, rfl⟩

lemma animSlot_at_live (s : ℚ → ℚ) (t0 : ℚ) (st : AppState) (p : ℚ)
    (tv : List VoxelData) (acc : LoopAcc) (i : ℕ) (t : VoxelData)
    (ht : tv[i]? = some t) (hi : i < acc.matrices.length) (hci : i < acc.colors.length) :
    (animSlot s t0 st p tv acc i).matrices[i]?
      = some ⟨lerp3 (acc.matrices.getD i zeroSlot).pos
          (t.x, (if st = AppState.REBUILDING then t.y
                 else t.y + s (t0 + t.x * (1 / 2)) * (1 / 20)), t.z) (1 / 10),
        lerp3 (acc.matrices.getD i zeroSlot).scale (1, 1, 1) (1 / 10)⟩ ∧
    (animSlot s t0 st p tv acc i).colors[i]?
      = if st = AppState.REBUILDING ∧ 1 / 2 < p
        then some (some t.color) else acc.colors[i]? := by
  constructor
  · simp [animSlot, ht, List.getElem?_set, hi]
  · simp only [animSlot, ht]
    split
    · simp [List.getElem?_set, hci]
    · rfl

lemma animSlot_at_orphan (s : ℚ → ℚ) (t0 : ℚ) (st : AppState) (p : ℚ)
    (tv : List VoxelData) (acc : LoopAcc) (i : ℕ)
    (ht : tv[i]? = none) (hi : i < acc.matrices.length) :
    (animSlot s t0 st p tv acc i).matrices[i]?
      = some ⟨acc.dummyPos, lerp3 (acc.matrices.getD i zeroSlot).scale (0, 0, 0) (1 / 5)⟩ ∧
    (animSlot s t0 st p tv acc i).colors[i]? = acc.colors[i]? := by
  constructor
  · simp [animSlot, ht, List.getElem?_set, hi]
  · simp [animSlot, ht]

lemma animate_colors_live (s : ℚ → ℚ) (e : Engine) (m : Mesh) (i : ℕ) (t : VoxelData)
    (hm : e.instanceMesh = some m) (hml : m.matrices.length = m.count)
    (hcl : m.colors.length = m.count) (hi : i < m.count)
    (ht : e.targetVoxels[i]? = some t) :
    ∃ m1, (animate s e).instanceMesh = some m1 ∧ m1.count = m.count ∧
      m1.matrices.length = m.count ∧ m1.colors.length = m.count ∧
      m1.colors[i]? = if (animate s e).state = AppState.REBUILDING ∧
          1 / 2 < (animate s e).morphProgress
        then some (some t.color) else m.colors[i]? := by
  rw [animate_some s e m hm]
  refine ⟨_, rfl, rfl, ?_, ?_, ?_⟩
  · have h1 := (loop_lengths s (((e.frameCount + 1 : ℕ) : ℚ) * (1 / 100))
      (animateProgress { e with frameCount := e.frameCount + 1 }).state
      (animateProgress { e with frameCount := e.frameCount + 1 }).morphProgress
      e.targetVoxels m.count (⟨m.matrices, m.colors, e.dummyPos, e.dummyScale⟩ : LoopAcc)).1
    simp only [animateLoopAcc]
    rw [h1]
    exact hml
  · have h2 := (loop_lengths s (((e.frameCount + 1 : ℕ) : ℚ) * (1 / 100))
      (animateProgress { e with frameCount := e.frameCount + 1 }).state
      (animateProgress { e with frameCount := e.frameCount + 1 }).morphProgress
      e.targetVoxels m.count (⟨m.matrices, m.colors, e.dummyPos, e.dummyScale⟩ : LoopAcc)).2
    simp only [animateLoopAcc]
    rw [h2]
    exact hcl
  · simp only [animateLoopAcc]
    rw [(loop_get_eq _ _ _ _ _ i m.count hi _).2]
    have hL : i < (((List.range i).foldl (animSlot s (((e.frameCount + 1 : ℕ) : ℚ) * (1 / 100))
        (animateProgress { e with frameCount := e.frameCount + 1 }).state
        (animateProgress { e with frameCount := e.frameCount + 1 }).morphProgress
        e.targetVoxels)
        (⟨m.matrices, m.colors, e.dummyPos, e.dummyScale⟩ : LoopAcc)).matrices.length) := by
      rw [(loop_lengths _ _ _ _ _ i _).1]
      show i < m.matrices.length
      omega
    have hC : i < (((List.range i).foldl (animSlot s (((e.frameCount + 1 : ℕ) : ℚ) * (1 / 100))
        (animateProgress { e with frameCount := e.frameCount + 1 }).state
        (animateProgress { e with frameCount := e.frameCount + 1 }).morphProgress
        e.targetVoxels)
        (⟨m.matrices, m.colors, e.dummyPos, e.dummyScale⟩ : LoopAcc)).colors.length) := by
      rw [(loop_lengths _ _ _ _ _ i _).2]
      show i < m.colors.length
      omega
    rw [(animSlot_at_live _ _ _ _ _ _ i t ht hL hC).2]
    rw [(loop_get_le _ _ _ _ _ i i le_rfl _).2]

lemma animate_matrices_orphan (s : ℚ → ℚ) (e : Engine) (m : Mesh) (i : ℕ) (sl : Slot)
    (hm : e.instanceMesh = some m) (hml : m.matrices.length = m.count)
    (hi : i < m.count) (ho : e.targetVoxels.length ≤ i)
    (hsl : m.matrices[i]? = some sl) :
    ∃ m1 dp, (animate s e).instanceMesh = some m1 ∧ m1.count = m.count ∧
      m1.matrices.length = m.count ∧ m1.colors.length = m.colors.length ∧
      m1.matrices[i]? = some ⟨dp, lerp3 sl.scale (0, 0, 0) (1 / 5)⟩ := by
  have ht : e.targetVoxels[i]? = none := List.getElem?_eq_none ho
  rw [animate_some s e m hm]
  refine ⟨_,
    (((List.range i).foldl (animSlot s (((e.frameCount + 1 : ℕ) : ℚ) * (1 / 100))
      (animateProgress { e with frameCount := e.frameCount + 1 }).state
      (animateProgress { e with frameCount := e.frameCount + 1 }).morphProgress
      e.targetVoxels)
      (⟨m.matrices, m.colors, e.dummyPos, e.dummyScale⟩ : LoopAcc)).dummyPos),
    rfl, rfl, ?_, ?_, ?_⟩
  · have h1 := (loop_lengths s (((e.frameCount + 1 : ℕ) : ℚ) * (1 / 100))
      (animateProgress { e with frameCount := e.frameCount + 1 }).state
      (animateProgress { e with frameCount := e.frameCount + 1 }).morphProgress
      e.targetVoxels m.count (⟨m.matrices, m.colors, e.dummyPos, e.dummyScale⟩ : LoopAcc)).1
    simp only [animateLoopAcc]
    rw [h1]
    exact hml
  · have h2 := (loop_lengths s (((e.frameCount + 1 : ℕ) : ℚ) * (1 / 100))
      (animateProgress { e with frameCount := e.frameCount + 1 }).state
      (animateProgress { e with frameCount := e.frameCount + 1 }).morphProgress
      e.targetVoxels m.count (⟨m.matrices, m.colors, e.dummyPos, e.dummyScale⟩ : LoopAcc)).2
    simp only [animateLoopAcc]
    rw [h2]
  · simp only [animateLoopAcc]
    rw [(loop_get_eq _ _ _ _ _ i m.count hi _).1]
    have hL : i < (((List.range i).foldl (animSlot s (((e.frameCount + 1 : ℕ) : ℚ) * (1 / 100))
        (animateProgress { e with frameCount := e.frameCount + 1 }).state
        (animateProgress { e with frameCount := e.frameCount + 1 }).morphProgress
        e.targetVoxels)
        (⟨m.matrices, m.colors, e.dummyPos, e.dummyScale⟩ : LoopAcc)).matrices.length) := by
      rw [(loop_lengths _ _ _ _ _ i _).1]
      show i < m.matrices.length
      omega
    rw [(animSlot_at_orphan _ _ _ _ _ _ i ht hL).1]
    rw [List.getD_eq_getElem?_getD, (loop_get_le _ _ _ _ _ i i le_rfl _).1]
    have hproj : (⟨m.matrices, m.colors, e.dummyPos, e.dummyScale⟩ : LoopAcc).matrices[i]?
        = some sl := hsl
    rw [hproj]
    rfl

lemma animate_proj_some (s : ℚ → ℚ) (e : Engine) (m : Mesh) (hm : e.instanceMesh = some m) :
    (∃ m1, (animate s e).instanceMesh = some m1 ∧ m1.count = m.count ∧
       m1.matrices.length = m.matrices.length ∧ m1.colors.length = m.colors.length) ∧
    ((e.state = AppState.REBUILDING ∧ 1 ≤ e.morphProgress + 3 / 200) →
       (animate s e).state = AppState.STABLE ∧ (animate s e).morphProgress = 1 ∧
       (animate s e).events = e.events ++ [Event.stateChange AppState.STABLE]) ∧
    ((e.state = AppState.REBUILDING ∧ ¬(1 ≤ e.morphProgress + 3 / 200)) →
       (animate s e).state = AppState.REBUILDING ∧
       (animate s e).morphProgress = e.morphProgress + 3 / 200 ∧
       (animate s e).events = e.events) ∧
    (e.state ≠ AppState.REBUILDING →
       (animate s e).state = e.state ∧ (animate s e).morphProgress = e.morphProgress ∧
       (animate s e).events = e.events) := by
  rw [animate_some s e m hm]
  refine ⟨⟨_, rfl, rfl, ?_, ?_⟩, ?_, ?_, ?_⟩
  · have h1 := (loop_lengths s (((e.frameCount + 1 : ℕ) : ℚ) * (1 / 100))
      (animateProgress { e with frameCount := e.frameCount + 1 }).state
      (animateProgress { e with frameCount := e.frameCount + 1 }).morphProgress
      e.targetVoxels m.count (⟨m.matrices, m.colors, e.dummyPos, e.dummyScale⟩ : LoopAcc)).1
    simp only [animateLoopAcc]
    rw [h1]
  · have h2 := (loop_lengths s (((e.frameCount + 1 : ℕ) : ℚ) * (1 / 100))
      (animateProgress { e with frameCount := e.frameCount + 1 }).state
      (animateProgress { e with frameCount := e.frameCount + 1 }).morphProgress
      e.targetVoxels m.count (⟨m.matrices, m.colors, e.dummyPos, e.dummyScale⟩ : LoopAcc)).2
    simp only [animateLoopAcc]
    rw [h2]
  · rintro ⟨h1, h2⟩
    rw [animateProgress_finish { e with frameCount := e.frameCount + 1 } h1 h2]
    simp
  · rintro ⟨h1, h2⟩
    rw [animateProgress_continue { e with frameCount := e.frameCount + 1 } h1 h2]
    simp [h1]
  · intro h1
    rw [animateProgress_idle { e with frameCount := e.frameCount + 1 } h1]
    simp

lemma prog_threshold (k : ℕ) : ((1 : ℚ) ≤ 3 * k / 200 + 3 / 200) ↔ 67 ≤ k + 1 := by
  have h200 : (0 : ℚ) < 200 := by norm_num
  rw [div_add_div_same, le_div_iff₀ h200, one_mul]
  constructor
  · intro h
    have hn : (200 : ℕ) ≤ 3 * k + 3 := by exact_mod_cast h
    omega
  · intro h
    have h66 : (66 : ℚ) ≤ (k : ℚ) := by exact_mod_cast Nat.le_of_succ_le_succ h
    linarith

lemma rebuild_tick_spec (s : ℚ → ℚ) (e1 : Engine) (n0 : ℕ)
    (h1 : e1.state = AppState.REBUILDING) (h2 : e1.morphProgress = 0)
    (hm : ∃ m, e1.instanceMesh = some m ∧ m.count = n0 ∧
      m.matrices.length = n0 ∧ m.colors.length = n0) :
    ∀ k,
      ((ticks s k e1).state = if 67 ≤ k then AppState.STABLE else AppState.REBUILDING) ∧
      ((ticks s k e1).morphProgress = if 67 ≤ k then (1 : ℚ) else 3 * (k : ℚ) / 200) ∧
      ((ticks s k e1).events =
        if 67 ≤ k then e1.events ++ [Event.stateChange AppState.STABLE] else e1.events) ∧
      ∃ mk, (ticks s k e1).instanceMesh = some mk ∧ mk.count = n0 ∧
        mk.matrices.length = n0 ∧ mk.colors.length = n0 := by
  intro k
  induction k with
  | zero =>
      obtain ⟨m, hm1, hm2, hm3, hm4⟩ := hm
      refine ⟨by simp [ticks, h1], by simp [ticks, h2], by simp [ticks], m, hm1, hm2, hm3, hm4⟩
  | succ k ih =>
      obtain ⟨ihs, ihp, ihe, mk, hmk, hc, hl1, hl2⟩ := ih
      have proj := animate_proj_some s (ticks s k e1) mk hmk
      by_cases hk : 67 ≤ k
      · have hk1 : 67 ≤ k + 1 := by omega
        have hst : (ticks s k e1).state ≠ AppState.REBUILDING := by
          rw [ihs, if_pos hk]; simp
        obtain ⟨hs', hp', he'⟩ := proj.2.2.2 hst
        refine ⟨?_, ?_, ?_, ?_⟩
        · rw [ticks, hs', ihs, if_pos hk, if_pos hk1]
        · rw [ticks, hp', ihp, if_pos hk, if_pos hk1]
        · rw [ticks, he', ihe, if_pos hk, if_pos hk1]
        · obtain ⟨m1, hm1, hcnt, hg1, hg2⟩ := proj.1
          refine ⟨m1, ?_, ?_, ?_, ?_⟩
          · rw [ticks]; exact hm1
          · rw [hcnt, hc]
          · rw [hg1, hl1]
          · rw [hg2, hl2]
      · have hst : (ticks s k e1).state = AppState.REBUILDING := by rw [ihs, if_neg hk]
        have hpk : (ticks s k e1).morphProgress = 3 * (k : ℚ) / 200 := by rw [ihp, if_neg hk]
        by_cases hk1 : 67 ≤ k + 1
        · have hge : 1 ≤ (ticks s k e1).morphProgress + 3 / 200 := by
            rw [hpk]; exact (prog_threshold k).mpr hk1
          obtain ⟨hs', hp', he'⟩ := proj.2.1 ⟨hst, hge⟩
          refine ⟨?_, ?_, ?_, ?_⟩
          · rw [ticks, hs', if_pos hk1]
          · rw [ticks, hp', if_pos hk1]
          · rw [ticks, he', ihe, if_neg hk, if_pos hk1]
          · obtain ⟨m1, hm1, hcnt, hg1, hg2⟩ := proj.1
            refine ⟨m1, ?_, ?_, ?_, ?_⟩
            · rw [ticks]; exact hm1
            · rw [hcnt, hc]
            · rw [hg1, hl1]
            · rw [hg2, hl2]
        · have hlt : ¬(1 ≤ (ticks s k e1).morphProgress + 3 / 200) := by
            rw [hpk]; exact fun h => hk1 ((prog_threshold k).mp h)
          obtain ⟨hs', hp', he'⟩ := proj.2.2.1 ⟨hst, hlt⟩
          refine ⟨?_, ?_, ?_, ?_⟩
          · rw [ticks, hs', if_neg hk1]
          · rw [ticks, hp', hpk, if_neg hk1]
            push_cast
            ring
          · rw [ticks, he', ihe, if_neg hk, if_neg hk1]
          · obtain ⟨m1, hm1, hcnt, hg1, hg2⟩ := proj.1
            refine ⟨m1, ?_, ?_, ?_, ?_⟩
            · rw [ticks]; exact hm1
            · rw [hcnt, hc]
            · rw [hg1, hl1]
            · rw [hg2, hl2]

/-- C1: for a transition accepted from `STABLE` with a non-empty pool,
repeated ticks drive the state back to `STABLE` in exactly
`ceil(1 / 0.015) = 67` ticks: for `k < 67` ticks the engine is still
`REBUILDING` with `morphProgress = 0.015 k < 1` and no state notification
has fired since the call, while from the 67th tick on the engine is `STABLE`
with `morphProgress = 1`, and the single `STABLE` state-change notification
is emitted exactly at the 67th tick — the tick at which `morphProgress`
first reaches `1`. -/
theorem rebuild_converges_in_67_ticks (s : ℚ → ℚ) (e : Engine) (m : Mesh)
    (c : List VoxelData) (hs : e.state = AppState.STABLE)
    (hm : e.instanceMesh = some m) (hc : 0 < m.count)
    (hml : m.matrices.length = m.count) (hcl : m.colors.length = m.count) :
    ∀ k,
      ((ticks s k (transitionTo e c)).state
        = if 67 ≤ k then AppState.STABLE else AppState.REBUILDING) ∧
      ((ticks s k (transitionTo e c)).morphProgress
        = if 67 ≤ k then (1 : ℚ) else 3 * (k : ℚ) / 200) ∧
      (k < 67 → (ticks s k (transitionTo e c)).morphProgress < 1) ∧
      ((ticks s k (transitionTo e c)).events
        = if 67 ≤ k then (transitionTo e c).events ++ [Event.stateChange AppState.STABLE]
          else (transitionTo e c).events) := by
  have hst : e.state ≠ AppState.REBUILDING := by rw [hs]; simp
  have hc0 : m.count ≠ 0 := by omega
  obtain ⟨a1, a2, _, _, a5⟩ := transitionTo_accepted_spec e c m hst hm hc0
  have hmesh : ∃ m1, (transitionTo e c).instanceMesh = some m1 ∧
      m1.count = max m.count c.length ∧
      m1.matrices.length = max m.count c.length ∧
      m1.colors.length = max m.count c.length := by
    rw [a5]
    by_cases hgrow : m.count < max m.count c.length
    · rw [if_pos hgrow]
      exact ⟨_, rfl, rfl, by simp, by simp⟩
    · rw [if_neg hgrow]
      have heq : max m.count c.length = m.count := by omega
      exact ⟨m, rfl, heq.symm, by rw [heq, hml], by rw [heq, hcl]⟩
  have spec := rebuild_tick_spec s (transitionTo e c) (max m.count c.length) a1 a2 hmesh
  intro k
  obtain ⟨s1, s2, s3, _⟩ := spec k
  refine ⟨s1, s2, ?_, s3⟩
  intro hk
  rw [s2, if_neg (by omega)]
  have hk66 : (k : ℚ) ≤ 66 := by exact_mod_cast Nat.lt_succ_iff.mp (by omega : k < 67)
  linarith

/-- The mesh of `sampleStable` (pool of one instance, loaded voxel `sv1`). -/
def msample : Mesh :=
  { count := 1, matrices := [voxSlot sv1], colors := [some (5 : ℤ)] }

/-- C1 witness: the concrete two-voxel transition on `sampleStable`
finishes at exactly tick 67. -/
theorem rebuild_converges_witness :
    ((ticks jsZero 67 (transitionTo sampleStable [sv2, sv1])).state
      = if 67 ≤ 67 then AppState.STABLE else AppState.REBUILDING) ∧
    ((ticks jsZero 66 (transitionTo sampleStable [sv2, sv1])).state
      = if 67 ≤ 66 then AppState.STABLE else AppState.REBUILDING) ∧
    (66 < 67 → (ticks jsZero 66 (transitionTo sampleStable [sv2, sv1])).morphProgress < 1) ∧
    ((ticks jsZero 67 (transitionTo sampleStable [sv2, sv1])).events
      = if 67 ≤ 67 then (transitionTo sampleStable [sv2, sv1]).events
          ++ [Event.stateChange AppState.STABLE]
        else (transitionTo sampleStable [sv2, sv1]).events) := by
  have h := rebuild_converges_in_67_ticks jsZero sampleStable msample [sv2, sv1]
    (by decide) (by decide) (by decide) (by decide) (by decide)
  exact ⟨(h 67).1, (h 66).1, (h 66).2.2.1, (h 67).2.2.2⟩

lemma rebuild_colors_spec (s : ℚ → ℚ) (e1 : Engine) (n0 : ℕ)
    (h1 : e1.state = AppState.REBUILDING) (h2 : e1.morphProgress = 0)
    (hm : ∃ m, e1.instanceMesh = some m ∧ m.count = n0 ∧
      m.matrices.length = n0 ∧ m.colors.length = n0)
    (i : ℕ) (t : VoxelData) (ht : e1.targetVoxels[i]? = some t) (hn : i < n0) :
    ∀ k, 34 ≤ k → k ≤ 67 →
      ∃ mk, (ticks s k e1).instanceMesh = some mk ∧
        mk.colors[i]? = some (some t.color) := by
  have spec := rebuild_tick_spec s e1 n0 h1 h2 hm
  have hstep : ∀ k, 33 ≤ k → k ≤ 65 →
      ∀ mk, (ticks s k e1).instanceMesh = some mk →
      ∃ m1, (ticks s (k + 1) e1).instanceMesh = some m1 ∧
        m1.colors[i]? = some (some t.color) := by
    intro k hk33 hk66 mk hmk
    obtain ⟨_, _, _, mk', hmk', hc', hl1', hl2'⟩ := spec k
    have hkk : mk = mk' := Option.some_injective _ (hmk.symm.trans hmk')
    subst hkk
    have htk : (ticks s k e1).targetVoxels[i]? = some t := by
      rw [ticks_targetVoxels]; exact ht
    have hmlk : mk.matrices.length = mk.count := by rw [hl1', hc']
    have hclk : mk.colors.length = mk.count := by rw [hl2', hc']
    have hik : i < mk.count := by rw [hc']; exact hn
    obtain ⟨m1, g1, g2, g3, g4, g5⟩ := animate_colors_live s (ticks s k e1) mk i t hmk
      hmlk hclk hik htk
    refine ⟨m1, by rw [ticks]; exact g1, ?_⟩
    rw [g5]
    have hcond : (animate s (ticks s k e1)).state = AppState.REBUILDING ∧
        1 / 2 < (animate s (ticks s k e1)).morphProgress := by
      obtain ⟨t1, t2, _, _⟩ := spec (k + 1)
      rw [ticks] at t1 t2
      have hnot : ¬(67 ≤ k + 1) := by omega
      constructor
      · rw [t1, if_neg hnot]
      · rw [t2, if_neg hnot]
        have h33 : (33 : ℚ) ≤ (k : ℚ) := by exact_mod_cast hk33
        rw [div_lt_div_iff₀ (by norm_num) (by norm_num)]
        push_cast
        linarith
    rw [if_pos hcond]
  intro k hk34
  induction k, hk34 using Nat.le_induction with
  | base =>
      intro _
      obtain ⟨_, _, _, mk, hmk, _, _, _⟩ := spec 33
      exact hstep 33 le_rfl (by omega) mk hmk
  | succ k hk ih =>
      intro hk67
      by_cases hkend : k + 1 ≤ 66
      · obtain ⟨_, _, _, mk, hmk, _, _, _⟩ := spec k
        exact hstep k (by omega) (by omega) mk hmk
      · -- k + 1 = 67: the state has flipped to STABLE, no color write this tick,
        -- the color set at tick k is preserved
        have hk66 : k = 66 := by omega
        subst hk66
        obtain ⟨mk, hmk, hcolk⟩ := ih (by omega)
        obtain ⟨_, _, _, mk', hmk', hc', hl1', hl2'⟩ := spec 66
        have hkk : mk = mk' := Option.some_injective _ (hmk.symm.trans hmk')
        subst hkk
        have htk : (ticks s 66 e1).targetVoxels[i]? = some t := by
          rw [ticks_targetVoxels]; exact ht
        have hmlk : mk.matrices.length = mk.count := by rw [hl1', hc']
        have hclk : mk.colors.length = mk.count := by rw [hl2', hc']
        have hik : i < mk.count := by rw [hc']; exact hn
        obtain ⟨m1, g1, g2, g3, g4, g5⟩ := animate_colors_live s (ticks s 66 e1) mk i t hmk
          hmlk hclk hik htk
        refine ⟨m1, by rw [ticks]; exact g1, ?_⟩
        rw [g5]
        have hcond : ¬((animate s (ticks s 66 e1)).state = AppState.REBUILDING ∧
            1 / 2 < (animate s (ticks s 66 e1)).morphProgress) := by
          obtain ⟨t1, _, _, _⟩ := spec 67
          rw [ticks] at t1
          have hyes : 67 ≤ 67 := le_rfl
          rw [t1, if_pos hyes]
          simp
        rw [if_neg hcond]
        exact hcolk

/-- C6: crossfade color discipline.  (a) In any single tick, a live slot's
stored color is overwritten (with the target's color) exactly when the
post-update state is `REBUILDING` and `morphProgress` has passed the
crossfade threshold `0.5`; otherwise the slot keeps its current color.
(b) After a transition accepted from `STABLE` with a non-empty pool
completes (67 ticks), every live slot's color equals the target's color. -/
theorem crossfade_color_discipline (s : ℚ → ℚ) (e : Engine) :
    (∀ m i t, e.instanceMesh = some m → m.matrices.length = m.count →
      m.colors.length = m.count → i < m.count → e.targetVoxels[i]? = some t →
      ∃ m1, (animate s e).instanceMesh = some m1 ∧
        m1.colors[i]? = if (animate s e).state = AppState.REBUILDING ∧
            1 / 2 < (animate s e).morphProgress
          then some (some t.color) else m.colors[i]?) ∧
    (∀ m c i, e.state = AppState.STABLE → e.instanceMesh = some m → 0 < m.count →
      m.matrices.length = m.count → m.colors.length = m.count →
      ∀ hi : i < c.length,
      ∃ m67, (ticks s 67 (transitionTo e c)).instanceMesh = some m67 ∧
        m67.colors[i]? = some (some (c.get ⟨i, hi⟩).color)) := by
  constructor
  · intro m i t hm hml hcl hi ht
    obtain ⟨m1, g1, _, _, _, g5⟩ := animate_colors_live s e m i t hm hml hcl hi ht
    exact ⟨m1, g1, g5⟩
  · intro m c i hs hm hc hml hcl hi
    have hst : e.state ≠ AppState.REBUILDING := by rw [hs]; simp
    have hc0 : m.count ≠ 0 := by omega
    obtain ⟨a1, a2, a3, _, a5⟩ := transitionTo_accepted_spec e c m hst hm hc0
    have hmesh : ∃ m1, (transitionTo e c).instanceMesh = some m1 ∧
        m1.count = max m.count c.length ∧
        m1.matrices.length = max m.count c.length ∧
        m1.colors.length = max m.count c.length := by
      rw [a5]
      by_cases hgrow : m.count < max m.count c.length
      · rw [if_pos hgrow]
        exact ⟨_, rfl, rfl, by simp, by simp⟩
      · rw [if_neg hgrow]
        have heq : max m.count c.length = m.count := by omega
        exact ⟨m, rfl, heq.symm, by rw [heq, hml], by rw [heq, hcl]⟩
    have ht : (transitionTo e c).targetVoxels[i]? = some (c.get ⟨i, hi⟩) := by
      rw [a3]
      exact List.getElem?_eq_getElem hi
    have hn : i < max m.count c.length := by
      have := le_max_right m.count c.length
      omega
    exact rebuild_colors_spec s (transitionTo e c) (max m.count c.length) a1 a2 hmesh
      i (c.get ⟨i, hi⟩) ht hn 67 (by omega) le_rfl

/-- The mesh of `sampleRebuilding` (fresh buffer of capacity 2 allocated by
the growth rebuild). -/
def msampleR : Mesh :=
  { count := 2, matrices := List.replicate 2 zeroSlot, colors := List.replicate 2 none }

/-- C6 witness: on the concrete mid-morph engine one tick does not recolor
slot 0 (progress `0.015 < 0.5`), and the completed two-voxel transition on
the concrete stable engine leaves slot 0 with the new target's color. -/
theorem crossfade_color_discipline_witness :
    (∃ m1, (animate jsZero sampleRebuilding).instanceMesh = some m1 ∧
      m1.colors[0]? = if (animate jsZero sampleRebuilding).state = AppState.REBUILDING ∧
          1 / 2 < (animate jsZero sampleRebuilding).morphProgress
        then some (some sv2.color) else msampleR.colors[0]?) ∧
    (∃ m67, (ticks jsZero 67 (transitionTo sampleStable [sv2, sv1])).instanceMesh = some m67 ∧
      m67.colors[0]? = some (some (([sv2, sv1].get ⟨0, by decide⟩).color))) := by
  constructor
  · exact (crossfade_color_discipline jsZero sampleRebuilding).1 msampleR 0 sv2
      (by decide) (by decide) (by decide) (by decide) (by decide)
  · exact (crossfade_color_discipline jsZero sampleStable).2 msample [sv2, sv1] 0
      (by decide) (by decide) (by decide) (by decide) (by decide) (by decide)

lemma ticks_orphan_scale (s : ℚ → ℚ) (e : Engine) (m : Mesh) (i : ℕ) (sl : Slot)
    (hm : e.instanceMesh = some m) (hml : m.matrices.length = m.count)
    (hi : i < m.count) (ho : e.targetVoxels.length ≤ i)
    (hsl : m.matrices[i]? = some sl) :
    ∀ k, ∃ mk dp, (ticks s k e).instanceMesh = some mk ∧ mk.count = m.count ∧
      mk.matrices.length = m.count ∧
      mk.matrices[i]? = some ⟨dp, ((4 / 5) ^ k * sl.scale.1,
        (4 / 5) ^ k * sl.scale.2.1, (4 / 5) ^ k * sl.scale.2.2)⟩ := by
  intro k
  induction k with
  | zero =>
      refine ⟨m, sl.pos, hm, rfl, hml, ?_⟩
      rw [hsl]
      obtain ⟨p, s1, s2, s3⟩ := sl
      simp
  | succ k ih =>
      obtain ⟨mk, dp, hmk, hc, hl, hslk⟩ := ih
      have hok : (ticks s k e).targetVoxels.length ≤ i := by
        rw [ticks_targetVoxels]; exact ho
      have hmlk : mk.matrices.length = mk.count := by rw [hl, hc]
      have hik : i < mk.count := by omega
      obtain ⟨m1, dp', g1, g2, g3, _, g5⟩ := animate_matrices_orphan s (ticks s k e) mk i
        ⟨dp, ((4 / 5) ^ k * sl.scale.1, (4 / 5) ^ k * sl.scale.2.1,
          (4 / 5) ^ k * sl.scale.2.2)⟩
        hmk hmlk hik hok hslk
      refine ⟨m1, dp', by rw [ticks]; exact g1, by rw [g2, hc], by rw [g3, hc], ?_⟩
      rw [g5]
      simp only [lerp3, pow_succ, Option.some.injEq, Slot.mk.injEq, Prod.mk.injEq]
      exact ⟨trivial, by ring, by ring, by ring⟩

/-- C7 (amended): each tick multiplies an orphaned slot's scale by the fixed
factor `0.8` (the `lerp` toward zero with ratio `0.2`), so after `k` ticks
the scale is `0.8^k` times the original and, for every `ε > 0`, there is a
number of ticks after which the slot's scale is within `ε` of zero in every
component.  (The original claim's assertion that the slot's *position* is
left in place is false — the orphan branch composes the matrix from the
shared scratch dummy's stale position; see the counterexample — so the
position is existentially quantified here.) -/
theorem orphan_scale_shrinks (s : ℚ → ℚ) (e : Engine) (m : Mesh) (i : ℕ) (sl : Slot)
    (hm : e.instanceMesh = some m) (hml : m.matrices.length = m.count)
    (hi : i < m.count) (ho : e.targetVoxels.length ≤ i)
    (hsl : m.matrices[i]? = some sl) :
    (∀ k, ∃ mk dp, (ticks s k e).instanceMesh = some mk ∧
      mk.matrices[i]? = some ⟨dp, ((4 / 5) ^ k * sl.scale.1,
        (4 / 5) ^ k * sl.scale.2.1, (4 / 5) ^ k * sl.scale.2.2)⟩) ∧
    (∀ ε : ℚ, 0 < ε → ∃ N, ∀ k, N ≤ k →
      ∃ mk dp sc, (ticks s k e).instanceMesh = some mk ∧
        mk.matrices[i]? = some ⟨dp, sc⟩ ∧
        |sc.1| < ε ∧ |sc.2.1| < ε ∧ |sc.2.2| < ε) := by
  have main := ticks_orphan_scale s e m i sl hm hml hi ho hsl
  constructor
  · intro k
    obtain ⟨mk, dp, h1, _, _, h4⟩ := main k
    exact ⟨mk, dp, h1, h4⟩
  · intro ε hε
    set M : ℚ := |sl.scale.1| + |sl.scale.2.1| + |sl.scale.2.2| + 1 with hMdef
    have hM : 0 < M := by positivity
    obtain ⟨N, hN⟩ := exists_pow_lt_of_lt_one (div_pos hε hM) (by norm_num : (4 : ℚ) / 5 < 1)
    refine ⟨N, ?_⟩
    intro k hk
    obtain ⟨mk, dp, h1, _, _, h4⟩ := main k
    have key : ∀ a : ℚ, |a| + 1 ≤ M → |(4 / 5 : ℚ) ^ k * a| < ε := by
      intro a ha
      have habs : |(4 / 5 : ℚ) ^ k * a| = (4 / 5 : ℚ) ^ k * |a| := by
        rw [abs_mul, abs_of_nonneg (pow_nonneg (by norm_num) k)]
      have hle : ((4 : ℚ) / 5) ^ k ≤ (4 / 5 : ℚ) ^ N :=
        pow_le_pow_of_le_one (by norm_num) (by norm_num) hk
      have hstep1 : (4 / 5 : ℚ) ^ k * |a| ≤ (4 / 5 : ℚ) ^ N * M :=
        mul_le_mul hle (by linarith) (abs_nonneg a) (pow_nonneg (by norm_num) N)
      have hstep2 : (4 / 5 : ℚ) ^ N * M < (ε / M) * M :=
        mul_lt_mul_of_pos_right hN hM
      have hstep3 : (ε / M) * M = ε := div_mul_cancel₀ ε (ne_of_gt hM)
      rw [habs]
      linarith
    refine ⟨mk, dp, _, h1, h4, ?_, ?_, ?_⟩
    · refine key sl.scale.1 ?_
      rw [hMdef]
      have hn1 := abs_nonneg sl.scale.2.1
      have hn2 := abs_nonneg sl.scale.2.2
      linarith
    · refine key sl.scale.2.1 ?_
      rw [hMdef]
      have hn1 := abs_nonneg sl.scale.1
      have hn2 := abs_nonneg sl.scale.2.2
      linarith
    · refine key sl.scale.2.2 ?_
      rw [hMdef]
      have hn1 := abs_nonneg sl.scale.1
      have hn2 := abs_nonneg sl.scale.2.1
      linarith

/-- A concrete stable engine with a pool of two instances and a one-voxel
target: slot 1 is orphaned at position `(9,9,9)` with unit scale. -/
def eOrphan : Engine :=
  { instanceMesh := some
      { count := 2
        matrices := [⟨(5, 5, 5), (1, 1, 1)⟩, ⟨(9, 9, 9), (1, 1, 1)⟩]
        colors := [none, none] }
    dummyPos := (0, 0, 0)
    dummyScale := (1, 1, 1)
    voxels := []
    targetVoxels := [⟨0, 0, 0, 1⟩]
    morphProgress := 1
    state := AppState.STABLE
    frameCount := 0
    events := [] }

/-- C7 counterexample: after one tick of `eOrphan`, the orphaned slot 1 is
no longer at its position `(9,9,9)`: its matrix is recomposed from the
shared scratch dummy's stale position — the freshly interpolated position
`(9/2, 9/2, 9/2)` of the live slot 0 — so the claim that an orphaned slot's
position is left in place is false. -/
theorem orphan_position_not_left_in_place :
    ((animate jsZero eOrphan).instanceMesh.bind (fun m => m.matrices[1]?)).map Slot.pos
      = some ((9 / 2 : ℚ), (9 / 2 : ℚ), (9 / 2 : ℚ)) ∧
    ((animate jsZero eOrphan).instanceMesh.bind (fun m => m.matrices[1]?)).map Slot.pos
      ≠ some ((9 : ℚ), (9 : ℚ), (9 : ℚ)) := by
  have h : ((animate jsZero eOrphan).instanceMesh.bind (fun m => m.matrices[1]?)).map Slot.pos
      = some ((9 / 2 : ℚ), (9 / 2 : ℚ), (9 / 2 : ℚ)) := by
    norm_num [animate, animateProgress, animSlot, eOrphan, jsZero, lerp3, zeroSlot,
      List.range_succ, emit]
  refine ⟨h, ?_⟩
  rw [h]
  simp only [ne_eq, Option.some.injEq, Prod.mk.injEq, not_and]
  intro hc
  norm_num at hc

/-- C7 witness: the orphaned slot of `eOrphan` shrinks to within `1/100` of
zero scale after enough ticks. -/
theorem orphan_scale_shrinks_witness :
    (∃ mk dp, (ticks jsZero 1 eOrphan).instanceMesh = some mk ∧
      mk.matrices[1]? = some ⟨dp, ((4 / 5) ^ 1 * 1, (4 / 5) ^ 1 * 1, (4 / 5) ^ 1 * 1)⟩) ∧
    (∃ N, ∀ k, N ≤ k → ∃ mk dp sc, (ticks jsZero k eOrphan).instanceMesh = some mk ∧
      mk.matrices[1]? = some ⟨dp, sc⟩ ∧
      |sc.1| < (1 / 100 : ℚ) ∧ |sc.2.1| < (1 / 100 : ℚ) ∧ |sc.2.2| < (1 / 100 : ℚ)) := by
  have h := orphan_scale_shrinks jsZero eOrphan
    ⟨2, [⟨(5, 5, 5), (1, 1, 1)⟩, ⟨(9, 9, 9), (1, 1, 1)⟩], [none, none]⟩ 1
    ⟨(9, 9, 9), (1, 1, 1)⟩ rfl (by decide) (by decide) (by decide) (by decide)
  exact ⟨h.1 1, h.2 (1 / 100) (by norm_num)⟩

/-!
## Reachability invariant, capacity monotonicity, progress invariants
-/

/-- Invariant of every reachable engine state. -/
def EngineInv (e : Engine) : Prop :=
  e.state ≠ AppState.DISMANTLING ∧
  0 ≤ e.morphProgress ∧ e.morphProgress ≤ 1 ∧
  e.targetVoxels.length ≤ capacity e ∧
  (∀ m, e.instanceMesh = some m → m.matrices.length = m.count ∧ m.colors.length = m.count) ∧
  (e.state = AppState.REBUILDING → 0 < capacity e)

lemma inv_init : EngineInv initEngine := by
  refine ⟨by simp [initEngine], by norm_num [initEngine], by norm_num [initEngine],
    by simp [initEngine, capacity], ?_, ?_⟩
  · intro m hm
    simp [initEngine] at hm
  · intro h
    simp [initEngine] at h

lemma capacity_some (e : Engine) (m : Mesh) (hm : e.instanceMesh = some m) :
    capacity e = m.count := by
  simp [capacity, hm]

lemma capacity_none (e : Engine) (hm : e.instanceMesh = none) :
    capacity e = 0 := by
  simp [capacity, hm]

lemma capacity_pos_mesh (e : Engine) (h : 0 < capacity e) :
    ∃ m, e.instanceMesh = some m ∧ 0 < m.count := by
  rcases hm : e.instanceMesh with _ | m
  · rw [capacity_none e hm] at h
    omega
  · exact ⟨m, rfl, by rw [capacity_some e m hm] at h; exact h⟩

lemma capacity_loadInitialModel (e : Engine) (d : List VoxelData) :
    capacity (loadInitialModel e d) = d.length := by
  rw [capacity_some _ _ (loadInitialModel_spec e d).2.2.2.2]

lemma capacity_transitionTo_accepted (e : Engine) (c : List VoxelData) (m : Mesh)
    (hst : e.state ≠ AppState.REBUILDING) (hm : e.instanceMesh = some m)
    (hc : m.count ≠ 0) :
    capacity (transitionTo e c) = max m.count c.length := by
  obtain ⟨_, _, _, _, a5⟩ := transitionTo_accepted_spec e c m hst hm hc
  by_cases hg : m.count < max m.count c.length
  · rw [if_pos hg] at a5
    rw [capacity_some _ _ a5]
  · rw [if_neg hg] at a5
    rw [capacity_some _ _ a5]
    omega

lemma inv_loadInitialModel (e : Engine) (d : List VoxelData) (hInv : EngineInv e) :
    EngineInv (loadInitialModel e d) := by
  obtain ⟨h1, h2, h3, h4, h5⟩ := loadInitialModel_spec e d
  refine ⟨by rw [h1]; simp, by rw [h2]; exact hInv.2.1, by rw [h2]; exact hInv.2.2.1,
    ?_, ?_, ?_⟩
  · rw [h3, capacity_loadInitialModel]
  · intro m' hm'
    rw [h5] at hm'
    obtain rfl := Option.some_injective _ hm'.symm
    constructor <;> simp
  · intro hreb
    rw [h1] at hreb
    exact absurd hreb (by simp)

lemma inv_transitionTo (e : Engine) (c : List VoxelData) (hInv : EngineInv e) :
    EngineInv (transitionTo e c) := by
  by_cases hst : e.state = AppState.REBUILDING
  · rw [transitionTo_rejected e c hst]
    exact hInv
  · rcases hm : e.instanceMesh with _ | m
    · rw [transitionTo_empty_pool e c hst (Or.inl hm)]
      exact inv_loadInitialModel e c hInv
    · by_cases hc : m.count = 0
      · rw [transitionTo_empty_pool e c hst (Or.inr ⟨m, hm, hc⟩)]
        exact inv_loadInitialModel e c hInv
      · obtain ⟨a1, a2, a3, _, a5⟩ := transitionTo_accepted_spec e c m hst hm hc
        have hcap := capacity_transitionTo_accepted e c m hst hm hc
        refine ⟨by rw [a1]; simp, by rw [a2], by rw [a2]; norm_num, ?_, ?_, ?_⟩
        · rw [a3, hcap]
          exact le_max_right _ _
        · intro m' hm'
          by_cases hg : m.count < max m.count c.length
          · rw [if_pos hg] at a5
            rw [a5] at hm'
            obtain rfl := Option.some_injective _ hm'.symm
            constructor <;> simp
          · rw [if_neg hg] at a5
            rw [a5] at hm'
            obtain rfl := Option.some_injective _ hm'.symm
            exact (hInv.2.2.2.2.1) m' hm
        · intro _
          rw [hcap]
          have : 0 < m.count := by omega
          omega

lemma capacity_animate (s : ℚ → ℚ) (e : Engine) :
    capacity (animate s e) = capacity e := by
  rcases hm : e.instanceMesh with _ | m
  · rw [animate_none s e hm]
    rw [capacity_none e hm]
    exact capacity_none _ hm
  · obtain ⟨⟨m1, g1, g2, _, _⟩, _, _, _⟩ := animate_proj_some s e m hm
    rw [capacity_some _ _ g1, g2, capacity_some e m hm]

lemma animate_morphProgress_mono (s : ℚ → ℚ) (e : Engine) (hInv : EngineInv e)
    (hreb : e.state = AppState.REBUILDING) :
    e.morphProgress ≤ (animate s e).morphProgress := by
  obtain ⟨m, hm, _⟩ := capacity_pos_mesh e (hInv.2.2.2.2.2 hreb)
  obtain ⟨_, pf, pc, _⟩ := animate_proj_some s e m hm
  by_cases hp : 1 ≤ e.morphProgress + 3 / 200
  · rw [(pf ⟨hreb, hp⟩).2.1]
    exact hInv.2.2.1
  · rw [(pc ⟨hreb, hp⟩).2.1]
    linarith

lemma animate_morphProgress_cases (s : ℚ → ℚ) (e : Engine) :
    (animate s e).morphProgress = e.morphProgress ∨
    (e.state = AppState.REBUILDING ∧
      ((animate s e).morphProgress = 1 ∨
       (animate s e).morphProgress = e.morphProgress + 3 / 200)) := by
  rcases hm : e.instanceMesh with _ | m
  · left
    rw [animate_none s e hm]
  · obtain ⟨_, pf, pc, pi⟩ := animate_proj_some s e m hm
    by_cases hreb : e.state = AppState.REBUILDING
    · by_cases hp : 1 ≤ e.morphProgress + 3 / 200
      · exact Or.inr ⟨hreb, Or.inl (pf ⟨hreb, hp⟩).2.1⟩
      · exact Or.inr ⟨hreb, Or.inr (pc ⟨hreb, hp⟩).2.1⟩
    · exact Or.inl (pi hreb).2.1

lemma inv_animate (s : ℚ → ℚ) (e : Engine) (hInv : EngineInv e) : EngineInv (animate s e) := by
  rcases hm : e.instanceMesh with _ | m
  · rw [animate_none s e hm]
    exact hInv
  · obtain ⟨⟨m1, g1, g2, g3, g4⟩, pf, pc, pi⟩ := animate_proj_some s e m hm
    have hcap := capacity_animate s e
    have htv := animate_targetVoxels s e
    have hstate : (animate s e).state = AppState.STABLE ∨ (animate s e).state = e.state := by
      by_cases hreb : e.state = AppState.REBUILDING
      · by_cases hp : 1 ≤ e.morphProgress + 3 / 200
        · exact Or.inl (pf ⟨hreb, hp⟩).1
        · exact Or.inr ((pc ⟨hreb, hp⟩).1.trans hreb.symm)
      · exact Or.inr (pi hreb).1
    refine ⟨?_, ?_, ?_, ?_, ?_, ?_⟩
    · rcases hstate with h | h
      · rw [h]; simp
      · rw [h]; exact hInv.1
    · rcases animate_morphProgress_cases s e with h | ⟨_, h | h⟩
      · rw [h]; exact hInv.2.1
      · rw [h]; norm_num
      · rw [h]
        have := hInv.2.1
        linarith
    · rcases animate_morphProgress_cases s e with h | ⟨_, h | h⟩
      · rw [h]; exact hInv.2.2.1
      · rw [h]
      · by_cases hp : 1 ≤ e.morphProgress + 3 / 200
        · -- in this case the progress equation is the finish one; but `h` says
          -- it equals p + 3/200 anyway, so 1 ≤ that value cannot hold: derive ≤ 1
          rw [h]
          by_contra hcon
          push_neg at hcon
          -- hcon : 1 < p + 3/200; but then the finish branch applies
          rcases capacity_pos_mesh e (hInv.2.2.2.2.2 (by assumption)) with ⟨m', hm', _⟩
          have := (animate_proj_some s e m' hm').2.1 ⟨by assumption, by linarith⟩
          rw [h] at this
          linarith [this.2.1]
        · rw [h]
          push_neg at hp
          linarith
    · rw [htv, hcap]
      exact hInv.2.2.2.1
    · intro m' hm'
      obtain rfl := Option.some_injective _ (g1.symm.trans hm')
      obtain ⟨q1, q2⟩ := hInv.2.2.2.2.1 m hm
      exact ⟨by rw [g3, g2, q1], by rw [g4, g2, q2]⟩
    · intro hreb
      rw [hcap]
      rcases hstate with h | h
      · rw [h] at hreb
        exact absurd hreb (by simp)
      · rw [h] at hreb
        exact hInv.2.2.2.2.2 hreb

lemma inv_step (s : ℚ → ℚ) (e : Engine) (op : Op) (hInv : EngineInv e) :
    EngineInv (step s e op) := by
  cases op with
  | trans c => exact inv_transitionTo e c hInv
  | tick => exact inv_animate s e hInv

lemma inv_run (s : ℚ → ℚ) : ∀ (ops : List Op) (e : Engine),
    EngineInv e → EngineInv (run s e ops) := by
  intro ops
  induction ops with
  | nil => intro e h; exact h
  | cons op rest ih =>
      intro e h
      exact ih (step s e op) (inv_step s e op h)

lemma inv_run_init (s : ℚ → ℚ) (ops : List Op) : EngineInv (run s initEngine ops) :=
  inv_run s ops initEngine inv_init

lemma capacity_transitionTo_mono (e : Engine) (c : List VoxelData) :
    capacity e ≤ capacity (transitionTo e c) := by
  by_cases hst : e.state = AppState.REBUILDING
  · rw [transitionTo_rejected e c hst]
  · rcases hm : e.instanceMesh with _ | m
    · rw [capacity_none e hm]
      omega
    · by_cases hc : m.count = 0
      · rw [capacity_some e m hm, hc]
        omega
      · rw [capacity_some e m hm, capacity_transitionTo_accepted e c m hst hm hc]
        exact le_max_left _ _

lemma capacity_step_mono (s : ℚ → ℚ) (e : Engine) (op : Op) :
    capacity e ≤ capacity (step s e op) := by
  cases op with
  | trans c => exact capacity_transitionTo_mono e c
  | tick => rw [step, capacity_animate]

lemma capacity_run_mono (s : ℚ → ℚ) : ∀ (ops : List Op) (e : Engine),
    capacity e ≤ capacity (run s e ops) := by
  intro ops
  induction ops with
  | nil => intro e; exact le_rfl
  | cons op rest ih =>
      intro e
      exact le_trans (capacity_step_mono s e op) (ih (step s e op))

lemma capacity_transitionTo_accepted_ge (e : Engine) (c : List VoxelData)
    (hst : e.state ≠ AppState.REBUILDING) :
    c.length ≤ capacity (transitionTo e c) := by
  rcases hm : e.instanceMesh with _ | m
  · rw [transitionTo_empty_pool e c hst (Or.inl hm), capacity_loadInitialModel]
  · by_cases hc : m.count = 0
    · rw [transitionTo_empty_pool e c hst (Or.inr ⟨m, hm, hc⟩), capacity_loadInitialModel]
    · rw [capacity_transitionTo_accepted e c m hst hm hc]
      exact le_max_right _ _

/-- C4: pool capacity monotonicity.  Along any run of `transitionTo` calls
and ticks from a fresh engine, (i) capacity never decreases, (ii) after an
accepted `transitionTo c` (state not `REBUILDING` at the call) the capacity
is and stays at least `|c|` — hence capacity is at least the largest
accepted cloud seen so far — and (iii) after any single `transitionTo` call
the capacity is at least `max(previous live count, new target count)`. -/
theorem pool_capacity_monotone (s : ℚ → ℚ) (ops more : List Op) (c : List VoxelData) :
    capacity (run s initEngine ops) ≤ capacity (run s initEngine (ops ++ more)) ∧
    ((run s initEngine ops).state ≠ AppState.REBUILDING →
      c.length ≤ capacity (run s initEngine (ops ++ Op.trans c :: more))) ∧
    max (run s initEngine ops).targetVoxels.length
        (transitionTo (run s initEngine ops) c).targetVoxels.length
      ≤ capacity (transitionTo (run s initEngine ops) c) := by
  have happ : ∀ l2 : List Op, run s initEngine (ops ++ l2)
      = run s (run s initEngine ops) l2 := fun l2 => List.foldl_append _ _ _ _
  refine ⟨?_, ?_, ?_⟩
  · rw [happ]
    exact capacity_run_mono s more _
  · intro h
    rw [happ]
    show c.length ≤ capacity (run s (step s (run s initEngine ops) (Op.trans c)) more)
    exact le_trans (capacity_transitionTo_accepted_ge _ c h) (capacity_run_mono s more _)
  · have hInv := inv_run_init s ops
    have hInv2 := inv_transitionTo (run s initEngine ops) c hInv
    refine max_le ?_ hInv2.2.2.2.1
    exact le_trans hInv.2.2.2.1 (capacity_transitionTo_mono _ c)

/-- C4 witness: a concrete two-call run. -/
theorem pool_capacity_monotone_witness :
    capacity (run jsZero initEngine [Op.trans [sv1]]) ≤
      capacity (run jsZero initEngine ([Op.trans [sv1]] ++ [])) ∧
    [sv1, sv2].length ≤
      capacity (run jsZero initEngine ([Op.trans [sv1]] ++ Op.trans [sv1, sv2] :: [])) ∧
    max (run jsZero initEngine [Op.trans [sv1]]).targetVoxels.length
        (transitionTo (run jsZero initEngine [Op.trans [sv1]]) [sv1, sv2]).targetVoxels.length
      ≤ capacity (transitionTo (run jsZero initEngine [Op.trans [sv1]]) [sv1, sv2]) := by
  have h := pool_capacity_monotone jsZero [Op.trans [sv1]] [] [sv1, sv2]
  exact ⟨h.1, h.2.1 (by decide), h.2.2⟩

/-- C5: `morphProgress` invariants.  On any reachable engine,
`morphProgress ∈ [0,1]`; a tick taken while `REBUILDING` never decreases it;
and the only interaction that ever decreases it is a `transitionTo` call
accepted while the state is `STABLE` with a non-empty pool, which resets it
to `0`. -/
theorem morphProgress_invariants (s s2 : ℚ → ℚ) (ops : List Op) :
    (0 ≤ (run s initEngine ops).morphProgress ∧
      (run s initEngine ops).morphProgress ≤ 1) ∧
    ((run s initEngine ops).state = AppState.REBUILDING →
      (run s initEngine ops).morphProgress ≤
        (animate s2 (run s initEngine ops)).morphProgress) ∧
    (∀ op, (step s2 (run s initEngine ops) op).morphProgress
        < (run s initEngine ops).morphProgress →
      ∃ c, op = Op.trans c ∧ (run s initEngine ops).state = AppState.STABLE ∧
        (step s2 (run s initEngine ops) op).morphProgress = 0 ∧
        0 < capacity (run s initEngine ops)) := by
  have hInv := inv_run_init s ops
  refine ⟨⟨hInv.2.1, hInv.2.2.1⟩, fun h => animate_morphProgress_mono s2 _ hInv h, ?_⟩
  intro op hlt
  cases op with
  | tick =>
      exfalso
      by_cases hreb : (run s initEngine ops).state = AppState.REBUILDING
      · exact absurd hlt (not_lt.mpr (animate_morphProgress_mono s2 _ hInv hreb))
      · rcases hm : (run s initEngine ops).instanceMesh with _ | m
        · rw [step, animate_none s2 _ hm] at hlt
          exact lt_irrefl _ hlt
        · obtain ⟨_, _, _, pi⟩ := animate_proj_some s2 _ m hm
          rw [step, (pi hreb).2.1] at hlt
          exact lt_irrefl _ hlt
  | trans c =>
      by_cases hst : (run s initEngine ops).state = AppState.REBUILDING
      · rw [step, transitionTo_rejected _ c hst] at hlt
        exact absurd hlt (lt_irrefl _)
      · rcases hm : (run s initEngine ops).instanceMesh with _ | m
        · rw [step, transitionTo_empty_pool _ c hst (Or.inl hm),
            (loadInitialModel_spec _ c).2.1] at hlt
          exact absurd hlt (lt_irrefl _)
        · by_cases hc : m.count = 0
          · rw [step, transitionTo_empty_pool _ c hst (Or.inr ⟨m, hm, hc⟩),
              (loadInitialModel_spec _ c).2.1] at hlt
            exact absurd hlt (lt_irrefl _)
          · have hstable : (run s initEngine ops).state = AppState.STABLE := by
              have hdism := hInv.1
              cases h : (run s initEngine ops).state with
              | STABLE => rfl
              | DISMANTLING => exact absurd h hdism
              | REBUILDING => exact absurd h hst
            refine ⟨c, rfl, hstable, ?_, ?_⟩
            · exact (transitionTo_accepted_spec _ c m hst hm hc).2.1
            · rw [capacity_some _ m hm]
              omega

/-- C5 witness: concrete runs exercising each conjunct. -/
theorem morphProgress_invariants_witness :
    (0 ≤ (run jsZero initEngine [Op.trans [sv1]]).morphProgress ∧
      (run jsZero initEngine [Op.trans [sv1]]).morphProgress ≤ 1) ∧
    ((run jsZero initEngine [Op.trans [sv1], Op.trans [sv2, sv1]]).morphProgress ≤
      (animate jsZero (run jsZero initEngine [Op.trans [sv1], Op.trans [sv2, sv1]])).morphProgress) ∧
    (∃ c, Op.trans [sv2] = Op.trans c ∧
      (run jsZero initEngine [Op.trans [sv1]]).state = AppState.STABLE ∧
      (step jsZero (run jsZero initEngine [Op.trans [sv1]]) (Op.trans [sv2])).morphProgress = 0 ∧
      0 < capacity (run jsZero initEngine [Op.trans [sv1]])) :=
  ⟨(morphProgress_invariants jsZero jsZero [Op.trans [sv1]]).1,
   (morphProgress_invariants jsZero jsZero [Op.trans [sv1], Op.trans [sv2, sv1]]).2.1 (by decide),
   (morphProgress_invariants jsZero jsZero [Op.trans [sv1]]).2.2 (Op.trans [sv2]) (by decide)⟩

/-!
## Color parsing and fallback (`handleAskAI` adaptation)
-/

lemma hex_not_special (c : Char) (h : isHexDigit c = true) :
    c.isWhitespace = false ∧ c ≠ '-' ∧ c ≠ '+' ∧ c ≠ 'x' ∧ c ≠ 'X' ∧ c ≠ hashChar := by
  have hval : ((48 ≤ c.toNat ∧ c.toNat ≤ 57) ∨ (97 ≤ c.toNat ∧ c.toNat ≤ 102)) ∨
      (65 ≤ c.toNat ∧ c.toNat ≤ 70) := by
    simpa [isHexDigit, Bool.or_eq_true, Bool.and_eq_true, decide_eq_true_eq] using h
  have hsp : c ≠ ' ' := by intro hc; subst hc; exact absurd hval (by decide)
  have htab : c ≠ '\t' := by intro hc; subst hc; exact absurd hval (by decide)
  have hcr : c ≠ '\r' := by intro hc; subst hc; exact absurd hval (by decide)
  have hnl : c ≠ '\n' := by intro hc; subst hc; exact absurd hval (by decide)
  refine ⟨?_, ?_, ?_, ?_, ?_, ?_⟩
  · simp [Char.isWhitespace, hsp, htab, hcr, hnl]
  · intro hc; subst hc; exact absurd hval (by decide)
  · intro hc; subst hc; exact absurd hval (by decide)
  · intro hc; subst hc; exact absurd hval (by decide)
  · intro hc; subst hc; exact absurd hval (by decide)
  · intro hc; subst hc; exact absurd hval (by decide)

lemma jsParseIntHex_all_hex (cs : List Char) (hne : cs ≠ [])
    (hhex : ∀ c ∈ cs, isHexDigit c = true) :
    jsParseIntHex cs = some ((hexVal cs : ℕ) : ℤ) := by
  obtain ⟨c0, rest, rfl⟩ := List.exists_cons_of_ne_nil hne
  obtain ⟨hw, hminus, hplus, _, _, _⟩ := hex_not_special c0 (hhex c0 (by simp))
  have htake : (c0 :: rest).takeWhile isHexDigit = c0 :: rest :=
    List.takeWhile_eq_self_iff.mpr hhex
  have hmarker : dropHexMarker (c0 :: rest) = c0 :: rest := by
    cases rest with
    | nil => rfl
    | cons c1 rest' =>
        obtain ⟨_, _, _, hx, hX, _⟩ := hex_not_special c1 (hhex c1 (by simp))
        simp [dropHexMarker, hx, hX]
  simp [jsParseIntHex, hw, hminus, hplus, hmarker, htake]

/-- C8: adapting an external-service payload entry whose color string does
not parse as hexadecimal (e.g. `"zzzzzz"`, with or without a leading `#`)
yields the fixed fallback color `0xCCCCCC` — the adaptation is a total
function into integer colors, so no `NaN` and no exception can propagate —
while a parseable hex string has its leading `#` stripped and is normalized
to its integer value. -/
theorem color_fallback_adaptation :
    ((adaptVoxel { x := 0, y := 0, z := 0, color := "zzzzzz" }).color = 0xCCCCCC) ∧
    ((adaptVoxel { x := 0, y := 0, z := 0, color := "#zzzzzz" }).color = 0xCCCCCC) ∧
    (∀ (q1 q2 q3 : ℚ) (str : String), str.data ≠ [] →
      (∀ ch ∈ str.data, isHexDigit ch = true) →
      (adaptVoxel ⟨q1, q2, q3, String.mk (hashChar :: str.data)⟩).color
        = ((hexVal str.data : ℕ) : ℤ) ∧
      (adaptVoxel ⟨q1, q2, q3, str⟩).color = ((hexVal str.data : ℕ) : ℤ)) := by
  refine ⟨by decide, by decide, ?_⟩
  intro q1 q2 q3 str hne hhex
  have hparse := jsParseIntHex_all_hex str.data hne hhex
  constructor
  · simp [adaptVoxel, hparse]
  · obtain ⟨c0, rest, hdata⟩ := List.exists_cons_of_ne_nil hne
    obtain ⟨_, _, _, _, _, hhash⟩ := hex_not_special c0 (hhex c0 (by rw [hdata]; simp))
    rw [hdata] at hparse ⊢
    simp [adaptVoxel, hdata, hhash, hparse]

/-- C8 witness: the hex string `"ff"` adapts to `255` both with and without
a leading `#`. -/
theorem color_fallback_adaptation_witness :
    ("ff".data ≠ [] ∧ ∀ ch ∈ "ff".data, isHexDigit ch = true) ∧
    (adaptVoxel ⟨0, 0, 0, String.mk (hashChar :: "ff".data)⟩).color
      = ((hexVal "ff".data : ℕ) : ℤ) ∧
    (adaptVoxel ⟨0, 0, 0, "ff"⟩).color = ((hexVal "ff".data : ℕ) : ℤ) :=
  ⟨⟨by decide, by decide⟩,
   (color_fallback_adaptation.2.2 0 0 0 "ff" (by decide) (by decide)).1,
   (color_fallback_adaptation.2.2 0 0 0 "ff" (by decide) (by decide)).2⟩

/-!
## Integer lattice and deduplication of the discrete generators
-/

/-- A well-formed map entry: the stored voxel's coordinates are (casts of)
integers and the entry's key is the key of exactly those coordinates. -/
def GoodEntry (p : String × VoxelData) : Prop :=
  ∃ a b c : ℤ, p.2.x = (a : ℚ) ∧ p.2.y = (b : ℚ) ∧ p.2.z = (c : ℚ) ∧
    p.1 = blockKey a b c

/-- A well-formed voxel map: keys are pairwise distinct and every entry is
well-formed. -/
def GoodMap (m : VMap) : Prop :=
  (m.map Prod.fst).Nodup ∧ ∀ p ∈ m, GoodEntry p

lemma goodMap_nil : GoodMap [] := ⟨List.nodup_nil, by simp⟩

lemma goodMap_setBlock (m : VMap) (x y z : ℚ) (color : ℤ) (h : GoodMap m) :
    GoodMap (setBlock m x y z color) := by
  obtain ⟨hnd, hall⟩ := h
  unfold setBlock mapSet
  by_cases hmem : m.any (fun p => p.1 = blockKey (jsRound x) (jsRound y) (jsRound z)) = true
  · rw [if_pos hmem]
    constructor
    · have hkeys : (m.map (fun p =>
          if p.1 = blockKey (jsRound x) (jsRound y) (jsRound z)
          then (blockKey (jsRound x) (jsRound y) (jsRound z),
            ({ x := ((jsRound x : ℤ) : ℚ), y := ((jsRound y : ℤ) : ℚ),
               z := ((jsRound z : ℤ) : ℚ), color := color } : VoxelData))
          else p)).map Prod.fst = m.map Prod.fst := by
        rw [List.map_map]
        refine List.map_congr_left ?_
        intro p _
        by_cases hp : p.1 = blockKey (jsRound x) (jsRound y) (jsRound z)
        · simp [hp]
        · simp [hp]
      rw [hkeys]
      exact hnd
    · intro p hp
      obtain ⟨q, hq, hqe⟩ := List.mem_map.mp hp
      by_cases hqk : q.1 = blockKey (jsRound x) (jsRound y) (jsRound z)
      · rw [if_pos hqk] at hqe
        subst hqe
        exact ⟨jsRound x, jsRound y, jsRound z, rfl, rfl, rfl, rfl⟩
      · rw [if_neg hqk] at hqe
        subst hqe
        exact hall q hq
  · rw [if_neg hmem]
    constructor
    · rw [List.map_append]
      rw [List.nodup_append]
      refine ⟨hnd, List.nodup_singleton _, ?_⟩
      intro k hk hk2
      simp only [List.map_cons, List.map_nil, List.mem_singleton] at hk2
      subst hk2
      obtain ⟨q, hq, hqk⟩ := List.mem_map.mp hk
      have hfalse : m.any
          (fun p => p.1 = blockKey (jsRound x) (jsRound y) (jsRound z)) = false := by
        cases hb : m.any (fun p => p.1 = blockKey (jsRound x) (jsRound y) (jsRound z)) with
        | false => rfl
        | true => exact absurd hb hmem
      have hnotin := List.any_eq_false.mp hfalse q hq
      simp only [decide_eq_true_eq] at hnotin
      exact hnotin hqk
    · intro p hp
      rcases List.mem_append.mp hp with h1 | h1
      · exact hall p h1
      · simp only [List.mem_singleton] at h1
        subst h1
        exact ⟨jsRound x, jsRound y, jsRound z, rfl, rfl, rfl, rfl⟩

lemma goodMap_foldl {α : Type} (f : VMap → α → VMap)
    (hf : ∀ m a, GoodMap m → GoodMap (f m a)) :
    ∀ (l : List α) (m : VMap), GoodMap m → GoodMap (l.foldl f m) := by
  intro l
  induction l with
  | nil => intro m h; exact h
  | cons a rest ih => intro m h; exact ih (f m a) (hf m a h)

lemma goodMap_foldl_pair {α β : Type} (f : VMap × β → α → VMap × β)
    (hf : ∀ s a, GoodMap s.1 → GoodMap (f s a).1) :
    ∀ (l : List α) (s : VMap × β), GoodMap s.1 → GoodMap (l.foldl f s).1 := by
  intro l
  induction l with
  | nil => intro s h; exact h
  | cons a rest ih => intro s h; exact ih (f s a) (hf s a h)

lemma goodMap_drawCircle (m : VMap) (y radius : ℚ) (color : ℤ) (fill : Bool)
    (h : GoodMap m) : GoodMap (drawCircle m y radius color fill) := by
  unfold drawCircle
  refine goodMap_foldl _ ?_ _ _ h
  intro m1 x h1
  refine goodMap_foldl _ ?_ _ _ h1
  intro m2 z h2
  by_cases hc : ((x : ℚ) * x + (z : ℚ) * z ≤ radius * radius ∧
      (fill = true ∨ (radius - 1) * (radius - 1) ≤ (x : ℚ) * x + (z : ℚ) * z))
  · rw [if_pos hc]
    exact goodMap_setBlock _ _ _ _ _ h2
  · rw [if_neg hc]
    exact h2

lemma goodMap_drawCone (m : VMap) (yStart : ℚ) (height : ℕ) (rStart rEnd : ℚ)
    (color : ℤ) (fill : Bool) (h : GoodMap m) :
    GoodMap (drawCone m yStart height rStart rEnd color fill) := by
  unfold drawCone
  refine goodMap_foldl _ ?_ _ _ h
  intro m1 hh h1
  exact goodMap_drawCircle _ _ _ _ _ h1

/-- The property C10 asserts of every discrete generator's output: all
coordinates are integers and no two particles share a position. -/
def CloudDisjointLattice (l : List VoxelData) : Prop :=
  (∀ v ∈ l, ∃ a b c : ℤ, v.x = (a : ℚ) ∧ v.y = (b : ℚ) ∧ v.z = (c : ℚ)) ∧
  l.Pairwise (fun u w => ¬(u.x = w.x ∧ u.y = w.y ∧ u.z = w.z))

lemma goodMap_values (m : VMap) (h : GoodMap m) :
    CloudDisjointLattice (mapValues m) := by
  obtain ⟨hnd, hall⟩ := h
  constructor
  · intro v hv
    obtain ⟨p, hp, rfl⟩ := List.mem_map.mp hv
    obtain ⟨a, b, c, h1, h2, h3, _⟩ := hall p hp
    exact ⟨a, b, c, h1, h2, h3⟩
  · have hnd2 : m.Pairwise (fun p q => p.1 ≠ q.1) := List.pairwise_map.mp hnd
    unfold mapValues
    rw [List.pairwise_map]
    refine List.Pairwise.imp_of_mem ?_ hnd2
    intro p q hp hq hne
    rintro ⟨hx, hy, hz⟩
    obtain ⟨a, b, c, pa, pb, pc, pk⟩ := hall p hp
    obtain ⟨a', b', c', qa, qb, qc, qk⟩ := hall q hq
    apply hne
    rw [pk, qk]
    have ha : a = a' := by
      have hq2 : (a : ℚ) = (a' : ℚ) := by rw [← pa, ← qa, hx]
      exact_mod_cast hq2
    have hb : b = b' := by
      have hq2 : (b : ℚ) = (b' : ℚ) := by rw [← pb, ← qb, hy]
      exact_mod_cast hq2
    have hc : c = c' := by
      have hq2 : (c : ℚ) = (c' : ℚ) := by rw [← pc, ← qc, hz]
      exact_mod_cast hq2
    rw [ha, hb, hc]

/-- C10: every point cloud produced by the five discrete scene generators —
for any injected `Math.sin` / `Math.cos` / `Math.random` — contains only
particles with integer coordinates, and no two particles of one cloud share
a position: every candidate point is rounded onto the integer lattice by
`setBlock` and deduplicated through the keyed map (the last write at a cell
determines the stored voxel). -/
theorem discrete_generators_integer_lattice (sinPi sn cs : ℚ → ℚ) (rand : ℕ → ℚ) :
    CloudDisjointLattice Generators.V60Setup ∧
    CloudDisjointLattice (Generators.Equipment sinPi) ∧
    CloudDisjointLattice (Generators.GrindSize rand) ∧
    CloudDisjointLattice (Generators.BloomPhase rand) ∧
    CloudDisjointLattice (Generators.SpiralPour sn cs) := by
  refine ⟨?_, ?_, ?_, ?_, ?_⟩
  · simp only [Generators.V60Setup]
    refine goodMap_values _ ?_
    apply goodMap_drawCone
    apply goodMap_drawCone
    apply goodMap_drawCircle
    apply goodMap_drawCone
    refine goodMap_foldl _ ?_ _ _ ?_
    · intro m1 y h1
      exact goodMap_setBlock _ _ _ _ _ (goodMap_setBlock _ _ _ _ _ h1)
    · exact goodMap_drawCone _ _ _ _ _ _ _ goodMap_nil
  · simp only [Generators.Equipment]
    refine goodMap_values _ ?_
    apply goodMap_setBlock
    refine goodMap_foldl _ ?_ _ _ ?_
    · intro m1 i h1
      exact goodMap_setBlock _ _ _ _ _ h1
    · apply goodMap_drawCircle
      apply goodMap_drawCone
      refine goodMap_foldl _ ?_ _ _ ?_
      · intro m1 x h1
        exact goodMap_setBlock _ _ _ _ _ h1
      · refine goodMap_foldl _ ?_ _ _ goodMap_nil
        intro m1 x h1
        refine goodMap_foldl _ ?_ _ _ h1
        intro m2 z h2
        exact goodMap_setBlock _ _ _ _ _ h2
  · simp only [Generators.GrindSize]
    refine goodMap_values _ ?_
    refine goodMap_foldl _ ?_ _ _ ?_
    · -- coarse chunks
      intro m1 x h1
      refine goodMap_foldl _ ?_ _ _ h1
      intro m2 z h2
      refine goodMap_foldl _ ?_ _ _ h2
      intro m3 y h3
      refine goodMap_foldl _ ?_ _ _ h3
      intro m4 dx h4
      refine goodMap_foldl _ ?_ _ _ h4
      intro m5 dy h5
      refine goodMap_foldl _ ?_ _ _ h5
      intro m6 dz h6
      exact goodMap_setBlock _ _ _ _ _ h6
    · -- medium clumps over the fine stochastic section
      refine goodMap_foldl _ ?_ _ _ ?_
      · intro m1 x h1
        refine goodMap_foldl _ ?_ _ _ h1
        intro m2 z h2
        refine goodMap_foldl _ ?_ _ _ h2
        intro m3 y h3
        exact goodMap_setBlock _ _ _ _ _
          (goodMap_setBlock _ _ _ _ _ (goodMap_setBlock _ _ _ _ _ h3))
      · -- fine stochastic section (pair state with the random counter)
        refine goodMap_foldl_pair _ ?_ _ _ goodMap_nil
        intro s0 x h0
        refine goodMap_foldl_pair _ ?_ _ _ h0
        intro s1 z h1
        refine goodMap_foldl_pair _ ?_ _ _ h1
        intro s2 y h2
        by_cases hr : 3 / 10 < rand s2.2
        · simpa [hr] using goodMap_setBlock _ _ _ _ _ h2
        · simpa [hr] using h2
  · simp only [Generators.BloomPhase]
    refine goodMap_values _ ?_
    refine goodMap_foldl _ ?_ _ _ ?_
    · intro m1 i h1
      exact goodMap_setBlock _ _ _ _ _ h1
    · apply goodMap_drawCircle
      exact goodMap_drawCone _ _ _ _ _ _ _ goodMap_nil
  · simp only [Generators.SpiralPour]
    refine goodMap_values _ ?_
    apply goodMap_setBlock
    refine goodMap_foldl_pair _ ?_ _ _ ?_
    · intro s0 y h0
      exact goodMap_setBlock _ _ _ _ _ (goodMap_setBlock _ _ _ _ _ h0)
    · exact goodMap_drawCone _ _ _ _ _ _ _ goodMap_nil
